import Mathlib

/-!
Verification of the request-handling pipeline of a reverse proxy for the
Anthropic Messages API, as a shallow embedding of the Rust sources.

The JSON data model mirrors serde_json values as used by the transform
pipeline in src/transforms; string values are Lean strings and numbers are
integers (only integral numbers are manipulated by the embedded code).
Database-backed components (the quota engine of src/auth/rate_limits.rs, the
key store of src/auth/client_keys.rs, the credential manager of
src/auth/oauth.rs) are embedded as pure functions over explicit state
records; randomness (fresh user ids) and upstream HTTP outcomes become
explicit parameters.

All money is in microdollars; prices are rationals (the sources use doubles,
whose rounding of the products is the `round` below for the non-negative
values that occur).
-/

set_option maxHeartbeats 1600000

namespace ClaudeProxy

-- ============================================================================
-- DEFINITIONS
-- ============================================================================

/-- Shallow embedding of `serde_json::Value`. -/
inductive Json where
  | null
  | boolV (b : Bool)
  | num (n : Int)
  | str (s : String)
  | arr (elems : List Json)
  | obj (fields : List (String × Json))
deriving Repr

/-- Field lookup in an object field list: first match wins (serde maps have
unique keys, so this agrees with `serde_json::Map::get`). -/
def getField : List (String × Json) → String → Option Json
  | [], _ => none
  | (k, v) :: rest, key => if k == key then some v else getField rest key

/-- Replace the value of a key (first occurrence) or append the pair: the
embedding of `serde_json::Map::insert`. -/
def setField : List (String × Json) → String → Json → List (String × Json)
  | [], key, v => [(key, v)]
  | (k, w) :: rest, key, v =>
      if k == key then (key, v) :: rest else (k, w) :: setField rest key v

/-- Remove a key: the embedding of `serde_json::Map::remove`. -/
def removeField : List (String × Json) → String → List (String × Json)
  | [], _ => []
  | (k, v) :: rest, key =>
      if k == key then removeField rest key else (k, v) :: removeField rest key

/-- `Value::get`: key lookup, `none` on non-objects. -/
def Json.get? : Json → String → Option Json
  | .obj fields, k => getField fields k
  | _, _ => none

/-- Insert a key into an object; non-objects are unchanged (mirrors the
`as_object_mut` guards in the Rust code). -/
def Json.setKey : Json → String → Json → Json
  | .obj fields, k, v => .obj (setField fields k v)
  | j, _, _ => j

/-- Remove a key from an object; non-objects are unchanged. -/
def Json.removeKey : Json → String → Json
  | .obj fields, k => .obj (removeField fields k)
  | j, _ => j

-- ----------------------------------------------------------------------------
-- Tool-name rewriting (src/transforms/tool_names.rs)
-- ----------------------------------------------------------------------------

/-- The characters of the literal tool-name tag `mcp_`. -/
def mcpTag : List Char := ['m', 'c', 'p', '_']

/-- Embedding of `add_mcp_prefix` (src/transforms/tool_names.rs): prepend
`mcp_` unless the name already starts with it.  Strings are handled through
their character lists, so `starts_with` becomes `List.isPrefixOf`. -/
def addMcp (name : String) : String :=
  if mcpTag.isPrefixOf name.data then name else String.mk (mcpTag ++ name.data)

/-- Embedding of `strip_mcp_prefix` (src/transforms/tool_names.rs): drop the
leading `mcp_` when present (`str::strip_prefix` with `unwrap_or(name)`). -/
def stripMcp (name : String) : String :=
  if mcpTag.isPrefixOf name.data then String.mk (name.data.drop 4) else name

/-- Does a `tools[]` entry carry a non-empty string `type` field?  Built-in
tools do; they are skipped by the request rewriting. -/
def toolTypeNonEmpty (tool : Json) : Bool :=
  match tool.get? "type" with
  | some (.str t) => !t.isEmpty
  | _ => false

/-- Rename a single user-defined tool entry with the `mcp_` tag
(src/transforms/tool_names.rs, tools loop body). -/
def renameTool (tool : Json) : Json :=
  match tool.get? "name" with
  | some (.str name) => tool.setKey "name" (.str (addMcp name))
  | _ => tool

/-- One `tools[]` entry of `transform_request_tool_names`: built-in tools
(non-empty `type`) are skipped, others are renamed. -/
def transformTool (tool : Json) : Json :=
  if toolTypeNonEmpty tool then tool else renameTool tool

/-- The `tools` pass of `transform_request_tool_names`. -/
def transformTools (body : Json) : Json :=
  match body.get? "tools" with
  | some (.arr tools) => body.setKey "tools" (.arr (tools.map transformTool))
  | _ => body

/-- `body.get("tool_choice").and_then(|tc| tc.get("type"))`. -/
def toolChoiceType (body : Json) : Option Json :=
  match body.get? "tool_choice" with
  | some tc => tc.get? "type"
  | none => none

/-- The `tool_choice` pass of `transform_request_tool_names`: rename
`tool_choice.name` when `tool_choice.type == "tool"` and the name is a
non-empty string without the tag. -/
def transformToolChoice (body : Json) : Json :=
  match toolChoiceType body with
  | some (.str t) =>
      if t == "tool" then
        match body.get? "tool_choice" with
        | some tc =>
            match tc.get? "name" with
            | some (.str name) =>
                if !name.isEmpty && !(mcpTag.isPrefixOf name.data) then
                  body.setKey "tool_choice" (tc.setKey "name" (.str (addMcp name)))
                else body
            | _ => body
        | none => body
      else body
  | _ => body

/-- Rename a `tool_use` content block (messages loop body). -/
def renameToolUse (block : Json) : Json :=
  match block.get? "type" with
  | some (.str t) =>
      if t == "tool_use" then
        match block.get? "name" with
        | some (.str name) => block.setKey "name" (.str (addMcp name))
        | _ => block
      else block
  | _ => block

/-- Rename all `tool_use` blocks in one message. -/
def transformMsgToolUses (msg : Json) : Json :=
  match msg.get? "content" with
  | some (.arr blocks) => msg.setKey "content" (.arr (blocks.map renameToolUse))
  | _ => msg

/-- The `messages` pass of `transform_request_tool_names`. -/
def transformMessages (body : Json) : Json :=
  match body.get? "messages" with
  | some (.arr msgs) => body.setKey "messages" (.arr (msgs.map transformMsgToolUses))
  | _ => body

/-- Embedding of `transform_request_tool_names` (src/transforms/tool_names.rs):
the three passes over tools, tool_choice and messages. -/
def transform_request_tool_names (body : Json) : Json :=
  transformMessages (transformToolChoice (transformTools body))

/-- Strip the tag from a `tool_use` content block (response direction). -/
def stripToolUse (block : Json) : Json :=
  match block.get? "type" with
  | some (.str t) =>
      if t == "tool_use" then
        match block.get? "name" with
        | some (.str name) => block.setKey "name" (.str (stripMcp name))
        | _ => block
      else block
  | _ => block

/-- Embedding of `transform_response_tool_names`
(src/transforms/tool_names.rs). -/
def transform_response_tool_names (body : Json) : Json :=
  match body.get? "content" with
  | some (.arr content) => body.setKey "content" (.arr (content.map stripToolUse))
  | _ => body

-- ----------------------------------------------------------------------------
-- Cache-control placement (src/transforms/common.rs)
-- ----------------------------------------------------------------------------

/-- The marker object `{type: ephemeral}` inserted by the preparer. -/
def ccEphemeral : Json := .obj [("type", .str "ephemeral")]

/-- `block.get("cache_control").is_some()`. -/
def hasCC (j : Json) : Bool := (j.get? "cache_control").isSome

/-- Count of `cache_control` markers among `system` blocks. -/
def countSystemCC (body : Json) : Nat :=
  match body.get? "system" with
  | some (.arr items) => items.countP hasCC
  | _ => 0

/-- Count of `cache_control` markers among `tools` entries. -/
def countToolsCC (body : Json) : Nat :=
  match body.get? "tools" with
  | some (.arr tools) => tools.countP hasCC
  | _ => 0

/-- Count of `cache_control` markers in one message's content blocks. -/
def countMsgCC (m : Json) : Nat :=
  match m.get? "content" with
  | some (.arr blocks) => blocks.countP hasCC
  | _ => 0

/-- Count of `cache_control` markers across all messages. -/
def countMessagesCC (body : Json) : Nat :=
  match body.get? "messages" with
  | some (.arr msgs) => (msgs.map countMsgCC).sum
  | _ => 0

/-- Embedding of `count_cache_control_blocks` (src/transforms/common.rs):
system blocks + tools entries + message content blocks. -/
def count_cache_control_blocks (body : Json) : Nat :=
  countSystemCC body + countToolsCC body + countMessagesCC body

/-- Mutate the last element of a list in place (Rust `last_mut`). -/
def updateLast (f : Json → Json) : List Json → List Json
  | [] => []
  | [x] => [f x]
  | x :: y :: xs => x :: updateLast f (y :: xs)

/-- Insert the ephemeral marker into a block when it is an object
(`if let Some(obj) = last.as_object_mut()`). -/
def tagCC (j : Json) : Json := j.setKey "cache_control" ccEphemeral

/-- Embedding of `inject_tools_cache_control` (src/transforms/common.rs). -/
def inject_tools_cache_control (body : Json) : Json :=
  match body.get? "tools" with
  | some (.arr tools) =>
      if tools.isEmpty then body
      else if tools.any hasCC then body
      else body.setKey "tools" (.arr (updateLast tagCC tools))
  | _ => body

/-- Embedding of `inject_system_cache_control` (src/transforms/common.rs). -/
def inject_system_cache_control (body : Json) : Json :=
  match body.get? "system" with
  | some (.arr items) =>
      if items.isEmpty then body
      else if items.any hasCC then body
      else body.setKey "system" (.arr (updateLast tagCC items))
  | some (.str text) =>
      body.setKey "system"
        (.arr [.obj [("type", .str "text"), ("text", .str text),
                     ("cache_control", ccEphemeral)]])
  | _ => body

/-- Does a message contain a content block with `cache_control`? -/
def contentHasCC (m : Json) : Bool :=
  match m.get? "content" with
  | some (.arr blocks) => blocks.any hasCC
  | _ => false

/-- Is a message a user turn? -/
def isUserMsg (m : Json) : Bool :=
  match m.get? "role" with
  | some (.str r) => r == "user"
  | _ => false

/-- The new content produced when tagging a message
(array branch mutates the last block; string content is converted). -/
def tagMsgContent (msg : Json) : Json :=
  match msg.get? "content" with
  | some (.arr blocks) =>
      if blocks.isEmpty then msg
      else msg.setKey "content" (.arr (updateLast tagCC blocks))
  | some (.str text) =>
      msg.setKey "content"
        (.arr [.obj [("type", .str "text"), ("text", .str text),
                     ("cache_control", ccEphemeral)]])
  | _ => msg

/-- The indices of user-role messages (`enumerate` + role filter). -/
def userIndices (msgs : List Json) : List Nat :=
  (msgs.enum.filter (fun p => isUserMsg p.2)).map Prod.fst

/-- Embedding of `inject_messages_cache_control` (src/transforms/common.rs). -/
def inject_messages_cache_control (body : Json) : Json :=
  match body.get? "messages" with
  | some (.arr msgs) =>
      if msgs.any contentHasCC then body
      else if (userIndices msgs).length < 2 then body
      else
        match (userIndices msgs)[(userIndices msgs).length - 2]? with
        | none => body
        | some target =>
            match msgs[target]? with
            | none => body
            | some msg =>
                body.setKey "messages" (.arr (msgs.set target (tagMsgContent msg)))
  | _ => body

/-- One guarded step of `ensure_cache_control`: run an injector if budget
remains and charge the budget by the observed before/after delta. -/
def injectStep (inj : Json → Json) (p : Json × Nat) : Json × Nat :=
  if 0 < p.2 then
    let before := count_cache_control_blocks p.1
    let b := inj p.1
    let after := count_cache_control_blocks b
    (b, p.2 - (after - before))
  else p

/-- The final guarded message-injection step of `ensure_cache_control`. -/
def ensureFinal (p : Json × Nat) : Json :=
  if 0 < p.2 then inject_messages_cache_control p.1 else p.1

/-- Embedding of `ensure_cache_control` (src/transforms/common.rs): count
existing markers, return unchanged at or over the limit, otherwise run the
three injectors (tools, system, messages) against the remaining budget. -/
def ensure_cache_control (body : Json) : Json :=
  if 4 ≤ count_cache_control_blocks body then body
  else
    ensureFinal (injectStep inject_system_cache_control
      (injectStep inject_tools_cache_control
        (body, 4 - count_cache_control_blocks body)))

-- ----------------------------------------------------------------------------
-- Request preparation (src/transforms/prepare.rs)
-- ----------------------------------------------------------------------------

/-- The fixed first-party system message prepended when cloaking
(src/constants.rs `SYSTEM_PREFIX`). -/
def SYSTEM_PREFIX : String :=
  "You are Claude Code, Anthropic\x27s official CLI for Claude."

/-- Embedding of `extract_betas` (src/transforms/prepare.rs): read
`body.betas` (string or string array, trimmed, non-empty) and remove the key. -/
def extract_betas (body : Json) : List String × Json :=
  (match body.get? "betas" with
   | some (.arr xs) =>
       ((xs.filterMap (fun v => match v with | .str s => some s | _ => none)).map
         (fun s => s.trim)).filter (fun s => !s.isEmpty)
   | some (.str s) => if s.trim.isEmpty then [] else [s.trim]
   | _ => [],
   body.removeKey "betas")

/-- Embedding of `disable_thinking_if_forced` (src/transforms/prepare.rs):
remove `thinking` when `tool_choice.type` is `any` or `tool`. -/
def disable_thinking_if_forced (body : Json) : Json :=
  match toolChoiceType body with
  | some (.str t) =>
      if t == "any" || t == "tool" then body.removeKey "thinking" else body
  | _ => body

/-- ASCII hex digit test (Rust `char::is_ascii_hexdigit`). -/
def isHexDigitChar (c : Char) : Bool :=
  c.isDigit || (('a' ≤ c && c ≤ 'f') || ('A' ≤ c && c ≤ 'F'))

/-- Embedding of `is_valid_user_id` (src/transforms/common.rs). -/
def is_valid_user_id (user_id : String) : Bool :=
  match user_id.splitOn "_account__session_" with
  | [p0, p1] =>
      (match p0.data with
       | 'u' :: 's' :: 'e' :: 'r' :: '_' :: rest =>
           rest.length == 64 && rest.all isHexDigitChar
       | _ => false) &&
      (p1.length == 36 && p1.data.count '-' == 4)
  | _ => false

/-- Does the request need a fresh user id (missing, empty or malformed)? -/
def needsUserIdInjection (body : Json) : Bool :=
  match body.get? "metadata" with
  | none => true
  | some metadata =>
      match metadata.get? "user_id" with
      | none => true
      | some (.str id) => id.isEmpty || !is_valid_user_id id
      | some _ => true

/-- Embedding of `inject_fake_user_id` (src/transforms/prepare.rs); the
randomly generated id becomes the explicit `freshId` parameter. -/
def inject_fake_user_id (body : Json) (freshId : String) : Json :=
  if needsUserIdInjection body then
    match body.get? "metadata" with
    | some (.obj mf) => body.setKey "metadata" (.obj (setField mf "user_id" (.str freshId)))
    | _ => body.setKey "metadata" (.obj [("user_id", .str freshId)])
  else body

/-- The OpenCode replacement chain of `sanitize_system`
(src/transforms/prepare.rs). -/
def sanitizeText (text : String) : String :=
  (((text.replace "OpenCode" "Claude Code").replace "opencode" "Claude").replace
    "Opencode" "Claude").replace "OPENCODE" "Claude"

/-- Sanitize one system text block. -/
def sanitizeBlock (item : Json) : Json :=
  match item.get? "type" with
  | some (.str t) =>
      if t == "text" then
        match item.get? "text" with
        | some (.str s) => item.setKey "text" (.str (sanitizeText s))
        | _ => item
      else item
  | _ => item

/-- Embedding of `sanitize_system` (src/transforms/prepare.rs). -/
def sanitize_system (system : Json) : Json :=
  match system with
  | .arr items => .arr (items.map sanitizeBlock)
  | s => s

/-- The cloaking system prefix block. -/
def systemPrefixBlock : Json := .obj [("type", .str "text"), ("text", .str SYSTEM_PREFIX)]

/-- Embedding of `inject_system_message` (src/transforms/prepare.rs). -/
def inject_system_message (body : Json) : Json :=
  match body with
  | .obj _ =>
      body.setKey "system" (sanitize_system
        (match body.get? "system" with
         | none => Json.arr [systemPrefixBlock]
         | some (.str s) =>
             Json.arr [systemPrefixBlock, .obj [("type", .str "text"), ("text", .str s)]]
         | some (.arr arr0) => Json.arr (systemPrefixBlock :: arr0)
         | some other => Json.arr [systemPrefixBlock, other]))
  | _ => body

/-- Embedding of `sanitize_system_only` (src/transforms/prepare.rs). -/
def sanitize_system_only (body : Json) : Json :=
  match body.get? "system" with
  | some s => body.setKey "system" (sanitize_system s)
  | none => body

/-- Embedding of `strip_unsupported_fields` (src/transforms/prepare.rs). -/
def strip_unsupported_fields (body : Json) : Json :=
  body.removeKey "context_management"

/-- Result of preparing a request. -/
structure PreparedRequest where
  body : Json
  betas : List String

/-- Embedding of `prepare_anthropic_request` (src/transforms/prepare.rs):
extract betas, disable thinking under forced tool use, cloak (fake user id and
system prefix) or sanitize, rewrite tool names, place cache breakpoints, strip
unsupported fields. -/
def prepare_anthropic_request (body : Json) (cloak : Bool) (freshId : String) :
    PreparedRequest :=
  let p := extract_betas body
  let b1 := disable_thinking_if_forced p.2
  let b2 := if cloak then inject_fake_user_id b1 freshId else b1
  let b3 := transform_request_tool_names b2
  let b4 := if cloak then inject_system_message b3 else sanitize_system_only b3
  let b5 := ensure_cache_control b4
  ⟨strip_unsupported_fields b5, p.1⟩

/-- Is `tool_choice.type` one of the forced modes `any`/`tool`? -/
def toolChoiceForced (body : Json) : Bool :=
  match toolChoiceType body with
  | some (.str t) => t == "any" || t == "tool"
  | _ => false

/-- Does the body carry a `thinking` field? -/
def hasThinking (body : Json) : Bool := (body.get? "thinking").isSome

-- ----------------------------------------------------------------------------
-- Model suffix and thinking configuration (src/transforms/openai_compat.rs)
-- ----------------------------------------------------------------------------

/-- Rust `str::contains` through the character lists: the pattern occurs as a
contiguous infix. -/
def strContains (s pat : String) : Bool := decide (pat.data <:+: s.data)

/-- ASCII lowercasing through the character list (`str::to_lowercase` on the
ASCII model names and effort words handled here). -/
def lowerStr (s : String) : String := String.mk (s.data.map Char.toLower)

/-- Digit accumulation of `u32::from_str_radix` at radix 10: a non-empty
all-digit string whose value fits in a `u32`; a value over `u32::MAX`
(4294967295) is a `PosOverflow` parse error. -/
def digitsToNat? (cs : List Char) : Option Nat :=
  if cs.isEmpty then none
  else if cs.all (fun c => c.isDigit) then
    if cs.foldl (fun acc c => acc * 10 + (c.toNat - 48)) 0 ≤ 4294967295 then
      some (cs.foldl (fun acc c => acc * 10 + (c.toNat - 48)) 0)
    else none
  else none

/-- Embedding of `str::parse::<u32>`: an optional leading `+` (a lone sign
fails, and `-` is no sign for an unsigned type), then a non-empty all-digit
string whose value fits in a `u32`. -/
def strToNat? (s : String) : Option Nat :=
  match s.data with
  | '+' :: rest => digitsToNat? rest
  | cs => digitsToNat? cs

/-- Embedding of `is_opus_4_6` (src/transforms/openai_compat.rs). -/
def is_opus_4_6 (model : String) : Bool :=
  "claude-opus-4-6".data.isPrefixOf (lowerStr model).data ||
    strContains (lowerStr model) "opus-4-6"

/-- Index of the last occurrence of a character (Rust `str::rfind`). -/
def lastIdxOf : List Char → Char → Option Nat
  | [], _ => none
  | a :: as, c =>
      match lastIdxOf as c with
      | some i => some (i + 1)
      | none => if a == c then some 0 else none

/-- The recognised effort suffixes of `parse_model_suffix`. -/
def validSuffix (suffix : String) : Bool :=
  (lowerStr suffix == "none" || lowerStr suffix == "off" || lowerStr suffix == "disabled" ||
   lowerStr suffix == "low" || lowerStr suffix == "minimal" || lowerStr suffix == "medium" ||
   lowerStr suffix == "med" || lowerStr suffix == "high" || lowerStr suffix == "xhigh" ||
   lowerStr suffix == "max" || lowerStr suffix == "auto") || (strToNat? suffix).isSome

/-- Embedding of `parse_model_suffix` (src/transforms/openai_compat.rs):
split `<base>(<suffix>)` when the suffix is a recognised effort word or a
decimal number. -/
def parse_model_suffix (model : String) : String × Option String :=
  match lastIdxOf model.data '(' with
  | none => (model, none)
  | some i =>
      if model.data.getLast? == some ')' then
        if validSuffix (String.mk ((model.data.drop (i + 1)).dropLast)) then
          (String.mk (model.data.take i), some (String.mk ((model.data.drop (i + 1)).dropLast)))
        else (model, none)
      else (model, none)

/-- The `thinking` JSON value built by the adapter: `{type:"adaptive"}` or
`{type:"enabled", budget_tokens:N}`. -/
inductive ThinkingVal where
  | adaptive
  | enabled (budget_tokens : Nat)
deriving Repr, DecidableEq

/-- The pair built by `build_thinking_config`: the `thinking` value and the
`output_config.effort` level. -/
structure ThinkingConfig where
  thinking : Option ThinkingVal
  output_config : Option String
deriving Repr, DecidableEq

/-- Embedding of `build_thinking_config` (src/transforms/openai_compat.rs). -/
def build_thinking_config (model effort : String) : ThinkingConfig :=
  if lowerStr effort == "none" || lowerStr effort == "off" || lowerStr effort == "disabled" then
    ⟨none, none⟩
  else if is_opus_4_6 model then
    if lowerStr effort == "low" || lowerStr effort == "minimal" then
      ⟨some .adaptive, some "low"⟩
    else if lowerStr effort == "medium" || lowerStr effort == "med" || lowerStr effort == "auto" then
      ⟨some .adaptive, some "medium"⟩
    else if lowerStr effort == "high" then ⟨some .adaptive, some "high"⟩
    else if lowerStr effort == "xhigh" || lowerStr effort == "max" then
      ⟨some .adaptive, some "max"⟩
    else
      match strToNat? effort with
      | some 0 => ⟨none, none⟩
      | some n =>
          ⟨some .adaptive, some (if n ≤ 2048 then "low" else if n ≤ 16384 then "medium"
            else if n ≤ 49152 then "high" else "max")⟩
      | none => ⟨some .adaptive, some "high"⟩
  else
    ⟨some (.enabled
      (if lowerStr effort == "low" || lowerStr effort == "minimal" then 1024
       else if lowerStr effort == "medium" || lowerStr effort == "med" then 8192
       else if lowerStr effort == "high" then 32000
       else if lowerStr effort == "xhigh" || lowerStr effort == "max" then 64000
       else if lowerStr effort == "auto" then 16000
       else (strToNat? effort).getD 8192)), none⟩

/-- The effort vocabulary of the specification's mapping table (§4.8). -/
inductive EffortCat where
  | off | low | medium | high | xmax | auto | numeric (n : Nat) | other
deriving Repr, DecidableEq

/-- Classify an effort string by the table's vocabulary. -/
def classifyEffort (effort : String) : EffortCat :=
  if lowerStr effort == "none" || lowerStr effort == "off" || lowerStr effort == "disabled" then
    .off
  else if lowerStr effort == "low" || lowerStr effort == "minimal" then .low
  else if lowerStr effort == "medium" || lowerStr effort == "med" then .medium
  else if lowerStr effort == "high" then .high
  else if lowerStr effort == "xhigh" || lowerStr effort == "max" then .xmax
  else if lowerStr effort == "auto" then .auto
  else
    match strToNat? effort with
    | some n => .numeric n
    | none => .other

/-- The amended C3 mapping, stated from the specification's table corrected by
the counterexamples: adaptive thinking applies exactly to the opus-4-6 model
family; manual budgets are low/minimal 1024, medium/med 8192, high 32000,
xhigh/max 64000, auto 16000, a decimal `u32` N (optionally `+`-signed) means
N, and any other string — a failed `u32` parse included, e.g. a value over
`u32::MAX` — means the 8192 default; adaptive levels are low, medium (also
for auto), high, max, with `u32` thresholds 2048/16384/49152, 0 disabling,
and any other string meaning high; none/off/disabled disables thinking. -/
def thinkingSpecC3 (model effort : String) : ThinkingConfig :=
  match classifyEffort effort with
  | .off => ⟨none, none⟩
  | cat =>
      if is_opus_4_6 model then
        match cat with
        | .low => ⟨some .adaptive, some "low"⟩
        | .medium => ⟨some .adaptive, some "medium"⟩
        | .auto => ⟨some .adaptive, some "medium"⟩
        | .high => ⟨some .adaptive, some "high"⟩
        | .xmax => ⟨some .adaptive, some "max"⟩
        | .numeric 0 => ⟨none, none⟩
        | .numeric n =>
            ⟨some .adaptive, some (if n ≤ 2048 then "low" else if n ≤ 16384 then "medium"
              else if n ≤ 49152 then "high" else "max")⟩
        | _ => ⟨some .adaptive, some "high"⟩
      else
        match cat with
        | .low => ⟨some (.enabled 1024), none⟩
        | .medium => ⟨some (.enabled 8192), none⟩
        | .high => ⟨some (.enabled 32000), none⟩
        | .xmax => ⟨some (.enabled 64000), none⟩
        | .auto => ⟨some (.enabled 16000), none⟩
        | .numeric n => ⟨some (.enabled n), none⟩
        | _ => ⟨some (.enabled 8192), none⟩

/-- Output of the model/thinking/max_tokens portion of
`transform_openai_request`. -/
structure ModelConfigOut where
  model : String
  thinking : Option ThinkingVal
  output_config : Option String
  max_tokens : Nat
deriving Repr, DecidableEq

/-- src/constants.rs `OPUS_4_6_MAX_OUTPUT`. -/
def OPUS_4_6_MAX_OUTPUT : Nat := 128000

/-- src/constants.rs `DEFAULT_MAX_OUTPUT`. -/
def DEFAULT_MAX_OUTPUT : Nat := 64000

/-- The model/thinking/max_tokens slice of `transform_openai_request`
(src/transforms/openai_compat.rs lines 236-310): suffix parsing,
reasoning_effort precedence, thinking config, max_tokens defaulting, the
manual-budget raise, the adaptive-thinking raise to 32000, and the model
output ceiling. -/
def transform_openai_model_config (model? : Option String)
    (reasoning_effort : Option String) (req_max_tokens : Option Nat) : ModelConfigOut :=
  let raw_model := model?.getD "claude-sonnet-4-5"
  let parsed := parse_model_suffix raw_model
  let cfg? := match reasoning_effort with
    | some e => some (build_thinking_config parsed.1 e)
    | none => parsed.2.map (fun e => build_thinking_config parsed.1 e)
  let thinking := match cfg? with
    | some c => c.thinking
    | none => none
  let output_config := match cfg? with
    | some c => c.output_config
    | none => none
  let model_max_output :=
    if is_opus_4_6 parsed.1 then OPUS_4_6_MAX_OUTPUT else DEFAULT_MAX_OUTPUT
  let mt0 := req_max_tokens.getD 16000
  let mt1 := match thinking with
    | some (.enabled budget) =>
        if mt0 ≤ budget then min (budget + 1000) model_max_output else mt0
    | _ => mt0
  let mt2 :=
    if is_opus_4_6 parsed.1 && thinking.isSome && decide (mt1 < 32000) then 32000 else mt1
  ⟨parsed.1, thinking, output_config, min mt2 model_max_output⟩

-- ----------------------------------------------------------------------------
-- Quota engine state (ledger generation: src/auth/rate_limits.rs, src/db.rs)
-- ----------------------------------------------------------------------------

/-- One `client_keys` row: the three optional cost limits and the five
window-tracking timestamps.  The key string and display fields do not take
part in the quota engine and are omitted. -/
structure ClientKeyRow where
  five_hour_limit : Option Nat
  weekly_limit : Option Nat
  total_limit : Option Nat
  five_hour_reset_at : Nat
  weekly_reset_at : Nat
  five_hour_count_from : Nat
  weekly_count_from : Nat
  total_count_from : Nat
deriving Repr, DecidableEq

/-- One `request_log` row. -/
structure LogRow where
  key_id : String
  model : String
  input_tokens : Nat
  output_tokens : Nat
  cache_read_tokens : Nat
  cache_write_tokens : Nat
  cost_microdollars : Nat
  created_at : Nat
deriving Repr, DecidableEq

/-- Model unit prices (USD per million tokens, numerically microdollars per
token). -/
structure ModelPricing where
  input_price : ℚ
  output_price : ℚ
  cache_read_price : ℚ
  cache_write_price : ℚ
deriving Repr, DecidableEq

/-- The usage report of one completed request (`llm_relay::Usage`). -/
structure Usage where
  input_tokens : Nat
  output_tokens : Nat
  cache_read_input_tokens : Option Nat
  cache_creation_input_tokens : Option Nat
deriving Repr, DecidableEq

/-- One `key_model_limits` row. -/
structure KeyModelLimitRow where
  key_id : String
  model : String
  five_hour_limit : Option Nat
  weekly_limit : Option Nat
  total_limit : Option Nat
  count_from : Nat
deriving Repr, DecidableEq

/-- The upstream subscription state consulted for window re-syncs and the
extra-usage gate. -/
structure SubscriptionState where
  five_hour_reset_at : Option Nat
  seven_day_reset_at : Option Nat
  five_hour_utilization : Option ℚ
  seven_day_utilization : Option ℚ
deriving Repr, DecidableEq

/-- The database state touched by the quota engine. -/
structure Db where
  client_keys : List (String × ClientKeyRow)
  request_log : List LogRow
  models : List (String × ModelPricing)
  key_model_limits : List KeyModelLimitRow
deriving Repr, DecidableEq

/-- Row lookup by primary key (first match). -/
def lookupStr {α : Type} : List (String × α) → String → Option α
  | [], _ => none
  | (k, r) :: rest, id => if k == id then some r else lookupStr rest id

/-- `UPDATE ... WHERE id = ?` over the key rows. -/
def updateKeyRows (l : List (String × ClientKeyRow)) (id : String)
    (f : ClientKeyRow → ClientKeyRow) : List (String × ClientKeyRow) :=
  l.map (fun p => if p.1 == id then (p.1, f p.2) else p)

/-- The three `count_from` thresholds in force for one key. -/
structure WindowState where
  five_hour_count_from : Nat
  weekly_count_from : Nat
  total_count_from : Nat
deriving Repr, DecidableEq

/-- 5 hours in milliseconds. -/
def fiveHourMs : Nat := 5 * 60 * 60 * 1000

/-- 7 days in milliseconds. -/
def oneWeekMs : Nat := 7 * 24 * 60 * 60 * 1000

/-- `Option::filter(|&t| t > now)` followed by `unwrap_or(d)`. -/
def filterFutureD (o : Option Nat) (now d : Nat) : Nat :=
  match o with
  | some t => if now < t then t else d
  | none => d

/-- `reset_at > 0 && now >= reset_at`: the window has expired. -/
def windowExpired (reset_at now : Nat) : Bool := 0 < reset_at && reset_at ≤ now

/-- The re-sync value of a reset timestamp: adopt an earlier future
subscription reset (`Option::filter(|&t| t > now && t < current)`). -/
def resyncTarget (current : Nat) (sub : Option Nat) (now : Nat) : Nat :=
  match sub with
  | some t => if now < t && t < current then t else current
  | none => current

/-- The non-expired branch of `maybe_reset_expired_windows`: adopt earlier
subscription resets (persisting only when something changed) and keep every
`count_from`. -/
def resyncBranch (db : Db) (key_id : String) (row : ClientKeyRow) (now : Nat)
    (wr : SubscriptionState) : Db × WindowState :=
  (if resyncTarget row.five_hour_reset_at wr.five_hour_reset_at now ≠ row.five_hour_reset_at ∨
      resyncTarget row.weekly_reset_at wr.seven_day_reset_at now ≠ row.weekly_reset_at then
    { db with client_keys := updateKeyRows db.client_keys key_id (fun r => { r with five_hour_reset_at := resyncTarget row.five_hour_reset_at wr.five_hour_reset_at now, weekly_reset_at := resyncTarget row.weekly_reset_at wr.seven_day_reset_at now }) }
  else db,
  ⟨row.five_hour_count_from, row.weekly_count_from, row.total_count_from⟩)

/-- The expired branch of `maybe_reset_expired_windows`: advance the expired
windows' `count_from` to the old `reset_at` and pick the new `reset_at` from
the subscription (or `now + duration`). -/
def expiredBranch (db : Db) (key_id : String) (row : ClientKeyRow) (now : Nat)
    (wr : SubscriptionState) : Db × WindowState :=
  ({ db with client_keys := updateKeyRows db.client_keys key_id (fun r => { r with five_hour_reset_at := if windowExpired row.five_hour_reset_at now then filterFutureD wr.five_hour_reset_at now (now + fiveHourMs) else row.five_hour_reset_at, weekly_reset_at := if windowExpired row.weekly_reset_at now then filterFutureD wr.seven_day_reset_at now (now + oneWeekMs) else row.weekly_reset_at, five_hour_count_from := if windowExpired row.five_hour_reset_at now then row.five_hour_reset_at else row.five_hour_count_from, weekly_count_from := if windowExpired row.weekly_reset_at now then row.weekly_reset_at else row.weekly_count_from }) },
   ⟨if windowExpired row.five_hour_reset_at now then row.five_hour_reset_at else row.five_hour_count_from,
    if windowExpired row.weekly_reset_at now then row.weekly_reset_at else row.weekly_count_from,
    row.total_count_from⟩)

/-- Embedding of `maybe_reset_expired_windows` (src/auth/rate_limits.rs):
advance `count_from` to the old `reset_at` for expired windows and pick the
new `reset_at` from the subscription (or `now + duration`); when nothing
expired, adopt earlier future subscription resets without touching
`count_from`. -/
def maybe_reset_expired_windows (db : Db) (key_id : String) (now : Nat)
    (wr : SubscriptionState) : Db × WindowState :=
  match lookupStr db.client_keys key_id with
  | none => (db, ⟨0, 0, 0⟩)
  | some row =>
      if !(windowExpired row.five_hour_reset_at now) &&
          !(windowExpired row.weekly_reset_at now) then
        resyncBranch db key_id row now wr
      else
        expiredBranch db key_id row now wr

/-- Embedding of `aggregate_usage_costs` (src/auth/rate_limits.rs): the three
conditional sums of `cost_microdollars` over `request_log`, scanning rows of
the key from the least `count_from`. -/
def aggregate_usage_costs (db : Db) (key_id : String) (ws : WindowState) :
    Nat × Nat × Nat :=
  let minFrom := min ws.five_hour_count_from (min ws.weekly_count_from ws.total_count_from)
  let rows := db.request_log.filter (fun r => r.key_id == key_id && minFrom ≤ r.created_at)
  ((rows.map (fun r =>
      if ws.five_hour_count_from ≤ r.created_at then r.cost_microdollars else 0)).sum,
   (rows.map (fun r =>
      if ws.weekly_count_from ≤ r.created_at then r.cost_microdollars else 0)).sum,
   (rows.map (fun r =>
      if ws.total_count_from ≤ r.created_at then r.cost_microdollars else 0)).sum)

/-- Half-up rounding of a non-negative rational to a natural number (the
`f64::round` of the sources on the non-negative costs that occur). -/
def roundCost (q : ℚ) : Nat := (round q).toNat

/-- The cost formula of `compute_cost` (src/auth/rate_limits.rs):
`round(Σ tokens_of_type × price_of_type)`. -/
def costOf (p : ModelPricing) (r : Usage) : Nat :=
  roundCost ((r.input_tokens : ℚ) * p.input_price + (r.output_tokens : ℚ) * p.output_price +
    ((r.cache_read_input_tokens.getD 0 : Nat) : ℚ) * p.cache_read_price +
    ((r.cache_creation_input_tokens.getD 0 : Nat) : ℚ) * p.cache_write_price)

/-- Embedding of `compute_cost` (src/auth/rate_limits.rs): price lookup, with
cost 0 when the model has no pricing row. -/
def compute_cost (db : Db) (model : String) (r : Usage) : Nat :=
  match lookupStr db.models model with
  | none => 0
  | some p => costOf p r

/-- The timestamp-initialisation step of `record_model_usage`
(src/auth/rate_limits.rs): zero reset timestamps are seeded from future
subscription resets. -/
def init_reset_timestamps (db : Db) (key_id : String) (wr : SubscriptionState)
    (now : Nat) : Db :=
  match lookupStr db.client_keys key_id with
  | some row =>
      if row.five_hour_reset_at == 0 || row.weekly_reset_at == 0 then
        { db with client_keys := updateKeyRows db.client_keys key_id (fun r => { r with five_hour_reset_at := if row.five_hour_reset_at == 0 then filterFutureD wr.five_hour_reset_at now 0 else row.five_hour_reset_at, weekly_reset_at := if row.weekly_reset_at == 0 then filterFutureD wr.seven_day_reset_at now 0 else row.weekly_reset_at }) }
      else db
  | none => db

/-- Embedding of `record_model_usage` (src/auth/rate_limits.rs): window
maintenance, timestamp initialisation, cost computation, and a single append
to `request_log`. -/
def record_model_usage (db : Db) (key_id model : String) (report : Usage)
    (wr : SubscriptionState) (now : Nat) : Db :=
  let db1 := (maybe_reset_expired_windows db key_id now wr).1
  let db2 := init_reset_timestamps db1 key_id wr now
  { db2 with request_log := db2.request_log ++
      [⟨key_id, model, report.input_tokens, report.output_tokens,
        report.cache_read_input_tokens.getD 0, report.cache_creation_input_tokens.getD 0,
        compute_cost db2 model report, now⟩] }

/-- The reset kinds of `UsageResetType` (src/auth/client_keys.rs). -/
inductive UsageResetType where
  | fiveHour | weekly | total | all
deriving Repr, DecidableEq

/-- The limits triple returned by `get_usage`. -/
structure TokenLimits where
  five_hour_limit : Option Nat
  weekly_limit : Option Nat
  total_limit : Option Nat
deriving Repr, DecidableEq

/-- The usage figures returned by `get_usage`. -/
structure TokenUsage where
  five_hour_tokens : Nat
  five_hour_reset_at : Nat
  weekly_tokens : Nat
  weekly_reset_at : Nat
  total_tokens : Nat
deriving Repr, DecidableEq

/-- Embedding of `get_usage` (src/auth/rate_limits.rs): read the window state
of the key, blank expired windows in the read-only view, and aggregate the
three window costs from `request_log`. -/
def get_usage (db : Db) (id : String) (now : Nat) : Option (TokenLimits × TokenUsage) :=
  match lookupStr db.client_keys id with
  | none => none
  | some key =>
      some (⟨key.five_hour_limit, key.weekly_limit, key.total_limit⟩,
        ⟨if windowExpired key.five_hour_reset_at now then 0
          else (aggregate_usage_costs db id
            ⟨key.five_hour_count_from, key.weekly_count_from, key.total_count_from⟩).1,
         if windowExpired key.five_hour_reset_at now then 0 else key.five_hour_reset_at,
         if windowExpired key.weekly_reset_at now then 0
          else (aggregate_usage_costs db id
            ⟨key.five_hour_count_from, key.weekly_count_from, key.total_count_from⟩).2.1,
         if windowExpired key.weekly_reset_at now then 0 else key.weekly_reset_at,
         (aggregate_usage_costs db id
           ⟨key.five_hour_count_from, key.weekly_count_from, key.total_count_from⟩).2.2⟩)

/-- The per-kind row update of `reset_usage`. -/
def resetFn (rt : UsageResetType) (now : Nat) (r : ClientKeyRow) : ClientKeyRow :=
  match rt with
  | .fiveHour => { r with five_hour_count_from := now, five_hour_reset_at := 0 }
  | .weekly => { r with weekly_count_from := now, weekly_reset_at := 0 }
  | .total => { r with total_count_from := now }
  | .all => { r with five_hour_count_from := now, weekly_count_from := now, total_count_from := now, five_hour_reset_at := 0, weekly_reset_at := 0 }

/-- Embedding of `reset_usage` (src/auth/rate_limits.rs): advance the
relevant `count_from` timestamps to `now` (and blank the matching `reset_at`);
`request_log` is untouched.  Returns whether a row was affected. -/
def reset_usage (db : Db) (id : String) (rt : UsageResetType) (now : Nat) :
    Bool × Db :=
  if (lookupStr db.client_keys id).isSome then
    (true, { db with client_keys := updateKeyRows db.client_keys id (resetFn rt now) })
  else (false, db)

/-- The three usage windows. -/
inductive UsageWindow where
  | fiveHour | weekly | total
deriving Repr, DecidableEq

/-- Which windows a reset kind covers. -/
def affects : UsageResetType → UsageWindow → Bool
  | .fiveHour, .fiveHour => true
  | .weekly, .weekly => true
  | .total, .total => true
  | .all, _ => true
  | _, _ => false

/-- The per-window figure shown by `get_usage`. -/
def windowTokens (db : Db) (id : String) (now : Nat) (w : UsageWindow) : Option Nat :=
  (get_usage db id now).map (fun p =>
    match w with
    | .fiveHour => p.2.five_hour_tokens
    | .weekly => p.2.weekly_tokens
    | .total => p.2.total_tokens)

/-- The projection of a key row that erases the window-tracking timestamps:
only the limit columns remain. -/
def limitsOfRow (r : ClientKeyRow) : Option Nat × Option Nat × Option Nat :=
  (r.five_hour_limit, r.weekly_limit, r.total_limit)

/-- The ledger cost of a key from a threshold on: the normal form of the
conditional sums of `aggregate_usage_costs`. -/
def winSum (db : Db) (id : String) (t : Nat) : Nat :=
  ((db.request_log.filter (fun r => r.key_id == id && t ≤ r.created_at)).map
    (fun r => r.cost_microdollars)).sum

-- ----------------------------------------------------------------------------
-- Authorization pipeline (src/routes/auth.rs, src/error.rs)
-- ----------------------------------------------------------------------------

/-- The proxy error taxonomy (src/error.rs, plus the `InvalidModel` and
`ModelNotAllowed` variants referenced by src/routes/auth.rs). -/
inductive ProxyError where
  | invalidApiKey
  | noAuthConfigured
  | rateLimitExceeded (msg : String)
  | anthropicApiError (msg : String)
  | parseError (msg : String)
  | oauthError (msg : String)
  | networkError (msg : String)
  | ioError (msg : String)
  | missingHeader (h : String)
  | databaseError (msg : String)
  | invalidModel (m : String)
  | modelNotAllowed (m : String)
deriving Repr, DecidableEq

/-- Modelled from the spec: the snapshot of src/error.rs predates the
`InvalidModel` and `ModelNotAllowed` variants that src/routes/auth.rs raises,
so their status codes are taken from the status mapping of the spec (sections
4.12 and 7): 400 and 403.  Every other case is the mapping of
`ProxyError::to_openai_response` in src/error.rs. -/
def statusOf : ProxyError → Nat
  | .invalidApiKey => 401
  | .missingHeader _ => 401
  | .noAuthConfigured => 401
  | .rateLimitExceeded _ => 429
  | .oauthError _ => 500
  | .ioError _ => 500
  | .databaseError _ => 500
  | .networkError _ => 502
  | .anthropicApiError _ => 502
  | .parseError _ => 502
  | .invalidModel _ => 400
  | .modelNotAllowed _ => 403

/-- The client-key fields consulted by `authenticate_key`. -/
structure ClientKeyInfo where
  id : String
  allow_extra_usage : Bool
deriving Repr, DecidableEq

/-- The environment of one `authenticate_key` run: the outcomes of the
database-backed sub-checks and of the two possible upstream interactions. -/
structure AuthEnv where
  validateResult : Option ClientKeyInfo
  checkLimitsErr : Option String
  modelValid : Bool
  allowedModels : List (String × String)
  pricing : Option ModelPricing
  checkModelLimitsErr : Option String
  subscription : SubscriptionState
  oauthToken : Option String

/-- The observable stages of `authenticate_key`, in source order.
`extraUsageFetch` and `oauthTokenFetch` are the only stages that may contact
the upstream. -/
inductive AuthStep where
  | validateKey | globalLimits | modelCheck | whitelist | modelLimits
  | extraUsageFetch | updateLastUsed | oauthTokenFetch
deriving Repr, DecidableEq

/-- Embedding of `is_model_allowed` (src/auth/rate_limits.rs): an empty
whitelist for the key allows every model, otherwise the model must be
whitelisted. -/
def is_model_allowed (rows : List (String × String)) (key_id model : String) : Bool :=
  if (rows.filter (fun p => p.1 == key_id)).length == 0 then true
  else 0 < (rows.filter (fun p => p.1 == key_id && p.2 == model)).length

/-- The source order of the authorization stages. -/
def canonicalAuthOrder : List AuthStep :=
  [.validateKey, .globalLimits, .modelCheck, .whitelist, .modelLimits,
   .extraUsageFetch, .updateLastUsed, .oauthTokenFetch]

/-- The successful result of `authenticate_key`. -/
structure AuthOk where
  client_key : ClientKeyInfo
  token : String
deriving Repr, DecidableEq

/-- Is the fresh subscription state over 100% on either window? -/
def subscriptionOver (s : SubscriptionState) : Bool :=
  (match s.five_hour_utilization with
   | some u => decide ((100 : ℚ) ≤ u)
   | none => false) ||
  (match s.seven_day_utilization with
   | some u => decide ((100 : ℚ) ≤ u)
   | none => false)

/-- Embedding of `authenticate_key` (src/routes/auth.rs): validate the key,
check global limits, model existence, the whitelist, per-model limits, and the
extra-usage gate, then update last-used and fetch the OAuth token.  The second
component records the stages performed, in order. -/
def authenticate_key (env : AuthEnv) (model : String) :
    Except ProxyError AuthOk × List AuthStep :=
  match env.validateResult with
  | none => (.error .invalidApiKey, [.validateKey])
  | some ck =>
      match env.checkLimitsErr with
      | some msg => (.error (.rateLimitExceeded msg), [.validateKey, .globalLimits])
      | none =>
          if !env.modelValid then
            (.error (.invalidModel model), [.validateKey, .globalLimits, .modelCheck])
          else if !is_model_allowed env.allowedModels ck.id model then
            (.error (.modelNotAllowed model),
             [.validateKey, .globalLimits, .modelCheck, .whitelist])
          else
            match env.checkModelLimitsErr with
            | some msg =>
                (.error (.rateLimitExceeded msg),
                 [.validateKey, .globalLimits, .modelCheck, .whitelist, .modelLimits])
            | none =>
                if !ck.allow_extra_usage then
                  if subscriptionOver env.subscription then
                    (.error (.rateLimitExceeded
                      "Subscription limits exhausted (extra usage not allowed for this key)"),
                     [.validateKey, .globalLimits, .modelCheck, .whitelist, .modelLimits,
                      .extraUsageFetch])
                  else
                    match env.oauthToken with
                    | none =>
                        (.error .noAuthConfigured,
                         [.validateKey, .globalLimits, .modelCheck, .whitelist, .modelLimits,
                          .extraUsageFetch, .updateLastUsed, .oauthTokenFetch])
                    | some tok =>
                        (.ok ⟨ck, tok⟩,
                         [.validateKey, .globalLimits, .modelCheck, .whitelist, .modelLimits,
                          .extraUsageFetch, .updateLastUsed, .oauthTokenFetch])
                else
                  match env.oauthToken with
                  | none =>
                      (.error .noAuthConfigured,
                       [.validateKey, .globalLimits, .modelCheck, .whitelist, .modelLimits,
                        .updateLastUsed, .oauthTokenFetch])
                  | some tok =>
                      (.ok ⟨ck, tok⟩,
                       [.validateKey, .globalLimits, .modelCheck, .whitelist, .modelLimits,
                        .updateLastUsed, .oauthTokenFetch])

-- ----------------------------------------------------------------------------
-- Constant-time key validation (src/auth/client_keys.rs `validate`)
-- ----------------------------------------------------------------------------

/-- One stored client key as seen by `validate`. -/
structure KeyRecord where
  id : String
  key : String
  enabled : Bool
deriving Repr, DecidableEq

/-- Embedding of `ClientKeysStore::validate` (src/auth/client_keys.rs):
fetch the enabled rows (`WHERE enabled = 1`), then scan them all, updating the
result on a match and never breaking out of the loop.  The second component
counts the comparisons performed. -/
def validateScan (rows : List KeyRecord) (presented : String) :
    Option KeyRecord × Nat :=
  (rows.filter (fun r => r.enabled)).foldl
    (fun acc ck => (if ck.key == presented then some ck else acc.1, acc.2 + 1))
    (none, 0)

/-- The value returned by `validate`. -/
def validateKeyScan (rows : List KeyRecord) (presented : String) : Option KeyRecord :=
  (validateScan rows presented).1

-- ----------------------------------------------------------------------------
-- OAuth refresh (src/auth/oauth.rs, src/auth/storage.rs)
-- ----------------------------------------------------------------------------

/-- The stored credential variants (src/auth/storage.rs `Auth`). -/
inductive AuthCred where
  | oauth (access refresh : String) (expires : Nat)
      (account_id enterprise_url : Option String)
  | api (key : String)
  | wellKnown (key token : String)
deriving Repr, DecidableEq

/-- A successful token-endpoint response body. -/
structure TokenResponse where
  access_token : String
  refresh_token : String
  expires_in : Nat
deriving Repr, DecidableEq

/-- The observable outcome of the upstream refresh POST. -/
inductive RefreshHttp where
  | success (t : TokenResponse)
  | httpFailure (status : Nat) (body : String)
  | netError (msg : String)
deriving Repr, DecidableEq

/-- The state and result of one `refresh_if_needed` run. -/
structure RefreshResult where
  stored : Option AuthCred
  result : Except String (Option String)
  calledUpstream : Bool
deriving Repr

/-- Embedding of `OAuthManager::refresh_if_needed` (src/auth/oauth.rs): static
keys pass through; a fresh OAuth token (60 s margin) is returned without any
upstream call; otherwise the refresh is posted, `invalid_grant` failures
delete the stored credential and yield `none`, other failures surface an
error, and success stores the rotated tokens (`update_tokens` keeps the
account fields). -/
def refresh_if_needed (stored : Option AuthCred) (now : Nat) (up : RefreshHttp) :
    RefreshResult :=
  match stored with
  | none => ⟨none, .ok none, false⟩
  | some (.api k) => ⟨some (.api k), .ok (some k), false⟩
  | some (.wellKnown k t) => ⟨some (.wellKnown k t), .ok (some t), false⟩
  | some (.oauth access refresh expires aid eur) =>
      if now + 60000 < expires then
        ⟨some (.oauth access refresh expires aid eur), .ok (some access), false⟩
      else
        match up with
        | .netError m =>
            ⟨some (.oauth access refresh expires aid eur),
             .error ("Failed to refresh token: " ++ m), true⟩
        | .httpFailure status body =>
            if strContains body "invalid_grant" then ⟨none, .ok none, true⟩
            else
              ⟨some (.oauth access refresh expires aid eur),
               .error ("Token refresh failed (" ++ toString status ++ "): " ++ body), true⟩
        | .success t =>
            ⟨some (.oauth t.access_token t.refresh_token (now + t.expires_in * 1000) aid eur),
             .ok (some t.access_token), true⟩

-- ----------------------------------------------------------------------------
-- Concrete witness data
-- ----------------------------------------------------------------------------

/-- A body block consisting of a cache-control marker alone. -/
def ccOnlyBlock : Json := .obj [("cache_control", ccEphemeral)]

/-- A request body that already carries five cache-control markers. -/
def bodyFiveMarkers : Json :=
  .obj [("system", .arr [ccOnlyBlock, ccOnlyBlock, ccOnlyBlock, ccOnlyBlock, ccOnlyBlock])]

/-- Witness database for the quota-engine claims: one key, one model, one
historical ledger row. -/
def dbW : Db :=
  { client_keys := [("k", ⟨some 1000000, none, none, 0, 0, 10, 10, 0⟩)],
    request_log := [⟨"k", "m", 5, 7, 0, 0, 99, 50⟩],
    models := [("m", ⟨3, 15, 1, 4⟩)],
    key_model_limits := [] }

/-- Witness environment for the authorization pipeline: a valid key whose
whitelist holds only claude-haiku-4-5. -/
def envW : AuthEnv :=
  { validateResult := some ⟨"k", false⟩,
    checkLimitsErr := none,
    modelValid := true,
    allowedModels := [("k", "claude-haiku-4-5")],
    pricing := none,
    checkModelLimitsErr := none,
    subscription := ⟨none, none, none, none⟩,
    oauthToken := some "tok" }

-- ============================================================================
-- THEOREMS: basic JSON field lemmas
-- ============================================================================

theorem getField_setField_self (f : List (String × Json)) (k : String) (v : Json) :
    getField (setField f k v) k = some v := by
  induction f with
  | nil => simp [setField, getField]
  | cons p rest ih =>
      by_cases h : p.1 == k
      · simp [setField, h, getField]
      · simp [setField, h, getField, ih]

theorem getField_setField_ne (f : List (String × Json)) (k k' : String) (v : Json)
    (h : k ≠ k') : getField (setField f k v) k' = getField f k' := by
  induction f with
  | nil => simp [setField, getField, h]
  | cons p rest ih =>
      by_cases hp : p.1 == k
      · have hpk : p.1 = k := by simpa using hp
        simp [setField, hp, getField, h, hpk]
      · simp [setField, hp, getField, ih]

theorem getField_removeField_self (f : List (String × Json)) (k : String) :
    getField (removeField f k) k = none := by
  induction f with
  | nil => simp [removeField, getField]
  | cons p rest ih =>
      by_cases hp : p.1 == k
      · simp [removeField, hp, ih]
      · simp [removeField, hp, getField, ih]

theorem getField_removeField_ne (f : List (String × Json)) (k k' : String)
    (h : k ≠ k') : getField (removeField f k) k' = getField f k' := by
  induction f with
  | nil => simp [removeField]
  | cons p rest ih =>
      by_cases hp : p.1 == k
      · have hpk : p.1 = k := by simpa using hp
        simp [removeField, hp, getField, ih, hpk, h]
      · simp [removeField, hp, getField, ih]

theorem get?_setKey_ne (j : Json) (k k' : String) (v : Json) (h : k ≠ k') :
    (j.setKey k v).get? k' = j.get? k' := by
  cases j <;> simp [Json.setKey, Json.get?]
  exact getField_setField_ne _ _ _ _ h

theorem get?_setKey_self_obj (f : List (String × Json)) (k : String) (v : Json) :
    ((Json.obj f).setKey k v).get? k = some v := by
  simp [Json.setKey, Json.get?]
  exact getField_setField_self _ _ _

theorem get?_removeKey_self (j : Json) (k : String) :
    (j.removeKey k).get? k = none := by
  cases j <;> simp [Json.removeKey, Json.get?]
  exact getField_removeField_self _ _

theorem get?_removeKey_ne (j : Json) (k k' : String) (h : k ≠ k') :
    (j.removeKey k).get? k' = j.get? k' := by
  cases j <;> simp [Json.removeKey, Json.get?]
  exact getField_removeField_ne _ _ _ h

theorem json_obj_of_get?_some (j : Json) (k : String) (v : Json)
    (h : j.get? k = some v) : ∃ f, j = .obj f := by
  cases j <;> simp_all [Json.get?]

-- ============================================================================
-- THEOREMS: mcp tag lemmas
-- ============================================================================

theorem isPrefixOf_mcp_append (l : List Char) : mcpTag.isPrefixOf (mcpTag ++ l) := by
  simp [List.isPrefixOf_iff_prefix]

theorem addMcp_data (name : String) (h : ¬ mcpTag.isPrefixOf name.data) :
    (addMcp name).data = mcpTag ++ name.data := by
  simp [addMcp, h]

theorem addMcp_of_prefixed (name : String) (h : mcpTag.isPrefixOf name.data) :
    addMcp name = name := by
  simp [addMcp, h]

theorem stripMcp_addMcp (name : String) (h : ¬ mcpTag.isPrefixOf name.data) :
    stripMcp (addMcp name) = name := by
  have hd := addMcp_data name h
  have hpre : mcpTag.isPrefixOf (addMcp name).data := by
    rw [hd]; exact isPrefixOf_mcp_append _
  have : (addMcp name).data.drop 4 = name.data := by
    rw [hd]
    have h4 : mcpTag.length = 4 := by decide
    have hdl := List.drop_left mcpTag name.data
    rw [h4] at hdl
    exact hdl
  simp [stripMcp, hpre, this]

theorem stripMcp_of_prefixed_ne (name : String) (h : mcpTag.isPrefixOf name.data) :
    stripMcp name ≠ name := by
  intro heq
  have hpre : mcpTag <+: name.data := by simpa [List.isPrefixOf_iff_prefix] using h
  have hlen : 4 ≤ name.data.length := by
    have h0 := hpre.length_le
    have hml : mcpTag.length = 4 := rfl
    rw [hml] at h0
    exact h0
  have hdata : (stripMcp name).data = name.data.drop 4 := by simp [stripMcp, h]
  have hdd : name.data.drop 4 = name.data := by rw [← hdata, heq]
  have hlen2 : name.data.length - 4 = name.data.length := by
    conv_rhs => rw [← hdd]
    simp [List.length_drop]
  omega

-- ============================================================================
-- THEOREMS: cache-control counting lemmas
-- ============================================================================

theorem hasCC_tagCC_obj (f : List (String × Json)) :
    hasCC (tagCC (.obj f)) = true := by
  simp [hasCC, tagCC, Json.setKey, Json.get?, getField_setField_self]

theorem hasCC_le_tagCC (j : Json) (h : hasCC j = true) : hasCC (tagCC j) = true := by
  cases j with
  | obj f => exact hasCC_tagCC_obj f
  | _ => simp_all [hasCC, Json.get?]

theorem countP_updateLast_bounds (l : List Json) :
    l.countP hasCC ≤ (updateLast tagCC l).countP hasCC ∧
    (updateLast tagCC l).countP hasCC ≤ l.countP hasCC + 1 := by
  induction l with
  | nil => simp [updateLast]
  | cons a as ih =>
      cases as with
      | nil =>
          simp only [updateLast, List.countP_cons, List.countP_nil]
          constructor
          · by_cases h : hasCC a = true
            · simp [h, hasCC_le_tagCC a h]
            · simp [Bool.not_eq_true] at h
              simp [h]
          · by_cases h : hasCC (tagCC a) = true <;> simp [h]
      | cons b bs =>
          have h1 : updateLast tagCC (a :: b :: bs) = a :: updateLast tagCC (b :: bs) := rfl
          obtain ⟨ihl, ihr⟩ := ih
          rw [h1]
          simp only [List.countP_cons] at ihl ihr ⊢
          constructor <;> omega

theorem countP_zero_of_any_false (l : List Json) (h : l.any hasCC = false) :
    l.countP hasCC = 0 := by
  rw [List.countP_eq_zero]
  intro a ha
  have := List.any_eq_false.mp h a ha
  simpa using this

theorem countSystemCC_setKey (b : Json) (k : String) (v : Json) (h : k ≠ "system") :
    countSystemCC (b.setKey k v) = countSystemCC b := by
  unfold countSystemCC
  rw [get?_setKey_ne b k "system" v h]

theorem countToolsCC_setKey (b : Json) (k : String) (v : Json) (h : k ≠ "tools") :
    countToolsCC (b.setKey k v) = countToolsCC b := by
  unfold countToolsCC
  rw [get?_setKey_ne b k "tools" v h]

theorem countMessagesCC_setKey (b : Json) (k : String) (v : Json) (h : k ≠ "messages") :
    countMessagesCC (b.setKey k v) = countMessagesCC b := by
  unfold countMessagesCC
  rw [get?_setKey_ne b k "messages" v h]

/-- `inject_tools_cache_control` adds zero or one marker and removes none. -/
theorem inject_tools_count (b : Json) :
    count_cache_control_blocks b ≤ count_cache_control_blocks (inject_tools_cache_control b) ∧
    count_cache_control_blocks (inject_tools_cache_control b) ≤ count_cache_control_blocks b + 1 := by
  unfold inject_tools_cache_control
  split
  case h_2 => omega
  case h_1 tools heq =>
    split
    · omega
    · split
      · omega
      case isFalse hne hcc =>
        obtain ⟨f, hf⟩ := json_obj_of_get?_some b "tools" _ heq
        subst hf
        have hget : ((Json.obj f).setKey "tools" (.arr (updateLast tagCC tools))).get? "tools"
            = some (.arr (updateLast tagCC tools)) := get?_setKey_self_obj _ _ _
        have hsys := countSystemCC_setKey (Json.obj f) "tools" (.arr (updateLast tagCC tools)) (by decide)
        have hmsg := countMessagesCC_setKey (Json.obj f) "tools" (.arr (updateLast tagCC tools)) (by decide)
        have htoolsOld : countToolsCC (Json.obj f) = tools.countP hasCC := by
          unfold countToolsCC; rw [heq]
        have htoolsNew : countToolsCC ((Json.obj f).setKey "tools" (.arr (updateLast tagCC tools)))
            = (updateLast tagCC tools).countP hasCC := by
          unfold countToolsCC; rw [hget]
        have hb := countP_updateLast_bounds tools
        unfold count_cache_control_blocks
        rw [hsys, hmsg, htoolsOld, htoolsNew]
        omega

/-- `inject_system_cache_control` adds zero or one marker and removes none. -/
theorem inject_system_count (b : Json) :
    count_cache_control_blocks b ≤ count_cache_control_blocks (inject_system_cache_control b) ∧
    count_cache_control_blocks (inject_system_cache_control b) ≤ count_cache_control_blocks b + 1 := by
  unfold inject_system_cache_control
  split
  case h_3 => omega
  case h_1 items heq =>
    split
    · omega
    · split
      · omega
      case isFalse hne hcc =>
        obtain ⟨f, hf⟩ := json_obj_of_get?_some b "system" _ heq
        subst hf
        have hget : ((Json.obj f).setKey "system" (.arr (updateLast tagCC items))).get? "system"
            = some (.arr (updateLast tagCC items)) := get?_setKey_self_obj _ _ _
        have htls := countToolsCC_setKey (Json.obj f) "system" (.arr (updateLast tagCC items)) (by decide)
        have hmsg := countMessagesCC_setKey (Json.obj f) "system" (.arr (updateLast tagCC items)) (by decide)
        have hold : countSystemCC (Json.obj f) = items.countP hasCC := by
          unfold countSystemCC; rw [heq]
        have hnew : countSystemCC ((Json.obj f).setKey "system" (.arr (updateLast tagCC items)))
            = (updateLast tagCC items).countP hasCC := by
          unfold countSystemCC; rw [hget]
        have hb := countP_updateLast_bounds items
        unfold count_cache_control_blocks
        rw [htls, hmsg, hold, hnew]
        omega
  case h_2 text heq =>
    obtain ⟨f, hf⟩ := json_obj_of_get?_some b "system" _ heq
    subst hf
    set newSys : Json := .arr [.obj [("type", .str "text"), ("text", .str text),
        ("cache_control", ccEphemeral)]] with hns
    have hget : ((Json.obj f).setKey "system" newSys).get? "system" = some newSys :=
      get?_setKey_self_obj _ _ _
    have htls := countToolsCC_setKey (Json.obj f) "system" newSys (by decide)
    have hmsg := countMessagesCC_setKey (Json.obj f) "system" newSys (by decide)
    have hold : countSystemCC (Json.obj f) = 0 := by
      unfold countSystemCC; rw [heq]
    have hcc1 : hasCC (.obj [("type", .str "text"), ("text", .str text),
        ("cache_control", ccEphemeral)]) = true := rfl
    have hnew : countSystemCC ((Json.obj f).setKey "system" newSys) = 1 := by
      simp [countSystemCC, hget, hns, List.countP_cons, hcc1]
    unfold count_cache_control_blocks
    rw [htls, hmsg, hold, hnew]
    omega

theorem sum_map_zero (f : Json → Nat) (l : List Json) (h : ∀ m ∈ l, f m = 0) :
    (l.map f).sum = 0 := by
  apply List.sum_eq_zero
  intro x hx
  obtain ⟨m, hm, rfl⟩ := List.mem_map.mp hx
  exact h m hm

theorem sum_map_set_of_zero (f : Json → Nat) (l : List Json) (i : Nat) (x : Json)
    (h : ∀ m ∈ l, f m = 0) : ((l.set i x).map f).sum ≤ f x := by
  induction l generalizing i with
  | nil => simp
  | cons a as ih =>
      cases i with
      | zero =>
          simp only [List.set, List.map_cons, List.sum_cons]
          have : (as.map f).sum = 0 := sum_map_zero f as (fun m hm => h m (List.mem_cons_of_mem a hm))
          omega
      | succ n =>
          simp only [List.set, List.map_cons, List.sum_cons]
          have ha : f a = 0 := h a (List.mem_cons_self a as)
          have := ih n (fun m hm => h m (List.mem_cons_of_mem a hm))
          omega

theorem countMsgCC_zero_of_no_cc (m : Json) (h : contentHasCC m = false) :
    countMsgCC m = 0 := by
  unfold contentHasCC at h
  unfold countMsgCC
  split
  case h_1 blocks heq =>
    rw [heq] at h
    exact countP_zero_of_any_false blocks h
  case h_2 => rfl

theorem countMsgCC_tagMsgContent_le (m : Json) (h : contentHasCC m = false) :
    countMsgCC (tagMsgContent m) ≤ 1 := by
  unfold tagMsgContent
  split
  case h_1 blocks heq =>
    split
    case isTrue =>
      have := countMsgCC_zero_of_no_cc m h
      omega
    case isFalse hne =>
      obtain ⟨f, hf⟩ := json_obj_of_get?_some m "content" _ heq
      subst hf
      have hget : ((Json.obj f).setKey "content" (.arr (updateLast tagCC blocks))).get? "content"
          = some (.arr (updateLast tagCC blocks)) := get?_setKey_self_obj _ _ _
      have hzero : blocks.countP hasCC = 0 := by
        unfold contentHasCC at h
        rw [heq] at h
        exact countP_zero_of_any_false blocks h
      have hb := countP_updateLast_bounds blocks
      simp only [countMsgCC, hget]
      omega
  case h_2 text heq =>
    obtain ⟨f, hf⟩ := json_obj_of_get?_some m "content" _ heq
    subst hf
    set newC : Json := .arr [.obj [("type", .str "text"), ("text", .str text),
        ("cache_control", ccEphemeral)]] with hnc
    have hget : ((Json.obj f).setKey "content" newC).get? "content" = some newC :=
      get?_setKey_self_obj _ _ _
    have hcc1 : hasCC (.obj [("type", .str "text"), ("text", .str text),
        ("cache_control", ccEphemeral)]) = true := rfl
    simp [countMsgCC, hget, hnc, List.countP_cons, hcc1]
  case h_3 => exact le_of_eq_of_le (countMsgCC_zero_of_no_cc m h) (by omega)

/-- `inject_messages_cache_control` adds zero or one marker and removes none. -/
theorem inject_messages_count (b : Json) :
    count_cache_control_blocks b ≤ count_cache_control_blocks (inject_messages_cache_control b) ∧
    count_cache_control_blocks (inject_messages_cache_control b) ≤ count_cache_control_blocks b + 1 := by
  unfold inject_messages_cache_control
  split
  case h_2 => omega
  case h_1 msgs heq =>
    split
    · omega
    case isFalse hany =>
      split
      · omega
      case isFalse hlen =>
        split
        · omega
        case h_2 target htarget =>
          split
          · omega
          case h_2 msg hmsg =>
            obtain ⟨f, hf⟩ := json_obj_of_get?_some b "messages" _ heq
            subst hf
            set msgs' : List Json := msgs.set target (tagMsgContent msg) with hm'
            have hget : ((Json.obj f).setKey "messages" (.arr msgs')).get? "messages"
                = some (.arr msgs') := get?_setKey_self_obj _ _ _
            have hsys := countSystemCC_setKey (Json.obj f) "messages" (.arr msgs') (by decide)
            have htls := countToolsCC_setKey (Json.obj f) "messages" (.arr msgs') (by decide)
            have hzero : ∀ m ∈ msgs, countMsgCC m = 0 := by
              intro m hm
              exact countMsgCC_zero_of_no_cc m (by
                have := List.any_eq_false.mp (by simpa using hany) m hm
                simpa using this)
            have hold : countMessagesCC (Json.obj f) = 0 := by
              unfold countMessagesCC
              rw [heq]
              exact sum_map_zero countMsgCC msgs hzero
            have hmem : msg ∈ msgs := by
              have := List.getElem?_eq_some_iff.mp hmsg
              obtain ⟨hlt, hrw⟩ := this
              exact hrw ▸ List.getElem_mem _
            have hle : countMsgCC (tagMsgContent msg) ≤ 1 := by
              apply countMsgCC_tagMsgContent_le
              have := List.any_eq_false.mp (by simpa using hany) msg hmem
              simpa using this
            have hnew : countMessagesCC ((Json.obj f).setKey "messages" (.arr msgs')) ≤ 1 := by
              unfold countMessagesCC
              rw [hget]
              exact le_trans (sum_map_set_of_zero countMsgCC msgs target _ hzero) hle
            unfold count_cache_control_blocks
            rw [hsys, htls, hold]
            omega

/-- The budget bookkeeping of `ensure_cache_control`: after a guarded step the
remaining budget is exactly `4 - count` and the count stays at most 4. -/
theorem injectStep_spec (inj : Json → Json)
    (hinj : ∀ b, count_cache_control_blocks b ≤ count_cache_control_blocks (inj b) ∧
      count_cache_control_blocks (inj b) ≤ count_cache_control_blocks b + 1)
    (p : Json × Nat) (hp : p.2 = 4 - count_cache_control_blocks p.1)
    (hp4 : count_cache_control_blocks p.1 ≤ 4) :
    (injectStep inj p).2 = 4 - count_cache_control_blocks (injectStep inj p).1 ∧
    count_cache_control_blocks (injectStep inj p).1 ≤ 4 := by
  unfold injectStep
  split
  case isTrue hpos =>
    have h := hinj p.1
    simp only
    constructor <;> omega
  case isFalse => exact ⟨hp, hp4⟩

-- ============================================================================
-- THEOREMS: C5 — cache-control cap
-- ============================================================================

/-- C5 (counterexample): the claim says the produced body always contains at
most four markers, but a body that arrives with five markers is returned
unchanged with its five markers. -/
theorem claim_C5_counterexample :
    4 < count_cache_control_blocks (ensure_cache_control bodyFiveMarkers) := by
  decide

/-- C5 (amended): the cache-control placement step never pushes the marker
count beyond four — the output holds at most `max 4 (input count)` markers —
and when the input already has four or more markers the body is returned
unchanged (nothing is added). -/
theorem claim_C5_amended (body : Json) :
    count_cache_control_blocks (ensure_cache_control body) ≤
      max 4 (count_cache_control_blocks body) ∧
    (4 ≤ count_cache_control_blocks body → ensure_cache_control body = body) := by
  by_cases h4 : 4 ≤ count_cache_control_blocks body
  · constructor
    · simp only [ensure_cache_control, if_pos h4]
      exact le_max_right _ _
    · intro _
      simp [ensure_cache_control, h4]
  · constructor
    · have h0 : (body, 4 - count_cache_control_blocks body).2
          = 4 - count_cache_control_blocks (body, 4 - count_cache_control_blocks body).1 := rfl
      have hc0 : count_cache_control_blocks (body, 4 - count_cache_control_blocks body).1 ≤ 4 := by
        simp only
        omega
      have s1 := injectStep_spec inject_tools_cache_control inject_tools_count _ h0 hc0
      have s2 := injectStep_spec inject_system_cache_control inject_system_count _ s1.1 s1.2
      simp only [ensure_cache_control, if_neg h4]
      unfold ensureFinal
      split
      next hpos =>
        have hm := inject_messages_count (injectStep inject_system_cache_control
          (injectStep inject_tools_cache_control (body, 4 - count_cache_control_blocks body))).1
        have hle : count_cache_control_blocks (inject_messages_cache_control
            (injectStep inject_system_cache_control
              (injectStep inject_tools_cache_control
                (body, 4 - count_cache_control_blocks body))).1) ≤ 4 := by
          obtain ⟨s21, s22⟩ := s2
          omega
        exact le_trans hle (le_max_left _ _)
      next =>
        exact le_trans s2.2 (le_max_left _ _)
    · intro h
      exact absurd h h4

/-- Witness for the amended C5 at a concrete body with five markers. -/
theorem claim_C5_witness :
    4 ≤ count_cache_control_blocks bodyFiveMarkers ∧
    ensure_cache_control bodyFiveMarkers = bodyFiveMarkers :=
  ⟨by decide, (claim_C5_amended bodyFiveMarkers).2 (by decide)⟩

-- ============================================================================
-- THEOREMS: C10 — mcp tag round trip
-- ============================================================================

/-- C10: `add_mcp_prefix` is idempotent; `strip(add(s)) = s` holds exactly for
names that do not already begin with `mcp_`; a user-defined tool whose name
already starts with `mcp_` is forwarded upstream unchanged by the request
rewriting, while the response translation strips the tag, so the round trip
renames that tool. -/
theorem claim_C10 :
    (∀ s : String, addMcp (addMcp s) = addMcp s) ∧
    (∀ s : String, stripMcp (addMcp s) = s ↔ mcpTag.isPrefixOf s.data = false) ∧
    (∀ s : String, mcpTag.isPrefixOf s.data = true →
      transformTool (Json.obj [("name", Json.str s)]) = Json.obj [("name", Json.str s)] ∧
      transform_response_tool_names
          (Json.obj [("content", Json.arr [Json.obj [("type", Json.str "tool_use"), ("name", Json.str s)]])])
        = Json.obj [("content", Json.arr [Json.obj [("type", Json.str "tool_use"), ("name", Json.str (stripMcp s))]])] ∧
      stripMcp s ≠ s) := by
  refine ⟨?_, ?_, ?_⟩
  · intro s
    by_cases h : mcpTag.isPrefixOf s.data
    · rw [addMcp_of_prefixed s h, addMcp_of_prefixed s h]
    · have hd := addMcp_data s h
      exact addMcp_of_prefixed (addMcp s) (by rw [hd]; exact isPrefixOf_mcp_append _)
  · intro s
    constructor
    · intro heq
      by_cases h : mcpTag.isPrefixOf s.data
      · rw [addMcp_of_prefixed s h] at heq
        exact absurd heq (stripMcp_of_prefixed_ne s h)
      · simp [h]
    · intro h
      exact stripMcp_addMcp s (by simp [h])
  · intro s h
    have h1 : addMcp s = s := addMcp_of_prefixed s h
    refine ⟨?_, rfl, stripMcp_of_prefixed_ne s h⟩
    have h2 : transformTool (Json.obj [("name", Json.str s)])
        = Json.obj [("name", Json.str (addMcp s))] := rfl
    rw [h2, h1]

/-- Witness for C10 at the concrete names `tool` and `mcp_tool`. -/
theorem claim_C10_witness :
    addMcp (addMcp "tool") = addMcp "tool" ∧
    (stripMcp (addMcp "tool") = "tool" ↔ mcpTag.isPrefixOf "tool".data = false) ∧
    stripMcp "mcp_tool" ≠ "mcp_tool" :=
  ⟨claim_C10.1 "tool", claim_C10.2.1 "tool",
   (claim_C10.2.2 "mcp_tool" (by decide)).2.2⟩

-- ============================================================================
-- THEOREMS: C6 — thinking / forced tool_choice exclusion
-- ============================================================================

theorem hasThinking_setKey (b : Json) (k : String) (v : Json) (hk : k ≠ "thinking") :
    hasThinking (b.setKey k v) = hasThinking b := by
  unfold hasThinking
  rw [get?_setKey_ne b k "thinking" v hk]

theorem hasThinking_removeKey (b : Json) (k : String) (hk : k ≠ "thinking") :
    hasThinking (b.removeKey k) = hasThinking b := by
  unfold hasThinking
  rw [get?_removeKey_ne b k "thinking" hk]

theorem toolChoiceType_setKey (b : Json) (k : String) (v : Json) (hk : k ≠ "tool_choice") :
    toolChoiceType (b.setKey k v) = toolChoiceType b := by
  unfold toolChoiceType
  rw [get?_setKey_ne b k "tool_choice" v hk]

theorem toolChoiceType_removeKey (b : Json) (k : String) (hk : k ≠ "tool_choice") :
    toolChoiceType (b.removeKey k) = toolChoiceType b := by
  unfold toolChoiceType
  rw [get?_removeKey_ne b k "tool_choice" hk]

theorem forced_setKey (b : Json) (k : String) (v : Json) (hk : k ≠ "tool_choice") :
    toolChoiceForced (b.setKey k v) = toolChoiceForced b := by
  unfold toolChoiceForced
  rw [toolChoiceType_setKey b k v hk]

theorem forced_removeKey (b : Json) (k : String) (hk : k ≠ "tool_choice") :
    toolChoiceForced (b.removeKey k) = toolChoiceForced b := by
  unfold toolChoiceForced
  rw [toolChoiceType_removeKey b k hk]

theorem hasThinking_transformTools (b : Json) :
    hasThinking (transformTools b) = hasThinking b := by
  unfold transformTools
  split
  · exact hasThinking_setKey _ _ _ (by decide)
  · rfl

theorem forced_transformTools (b : Json) :
    toolChoiceForced (transformTools b) = toolChoiceForced b := by
  unfold transformTools
  split
  · exact forced_setKey _ _ _ (by decide)
  · rfl

theorem hasThinking_transformToolChoice (b : Json) :
    hasThinking (transformToolChoice b) = hasThinking b := by
  unfold transformToolChoice
  split
  · split
    · split
      · split
        · split
          · exact hasThinking_setKey _ _ _ (by decide)
          · rfl
        · rfl
      · rfl
    · rfl
  · rfl

theorem forced_setKey_toolChoice (b tc v : Json)
    (htc : b.get? "tool_choice" = some tc) :
    toolChoiceForced (b.setKey "tool_choice" (tc.setKey "name" v)) = toolChoiceForced b := by
  obtain ⟨f, hf⟩ := json_obj_of_get?_some b "tool_choice" tc htc
  subst hf
  unfold toolChoiceForced toolChoiceType
  rw [get?_setKey_self_obj, htc]
  dsimp only
  rw [get?_setKey_ne tc "name" "type" _ (by decide)]

theorem forced_transformToolChoice (b : Json) :
    toolChoiceForced (transformToolChoice b) = toolChoiceForced b := by
  unfold transformToolChoice
  split
  · split
    · split
      · split
        · split
          · exact forced_setKey_toolChoice _ _ _ (by assumption)
          · rfl
        · rfl
      · rfl
    · rfl
  · rfl

theorem hasThinking_transformMessages (b : Json) :
    hasThinking (transformMessages b) = hasThinking b := by
  unfold transformMessages
  split
  · exact hasThinking_setKey _ _ _ (by decide)
  · rfl

theorem forced_transformMessages (b : Json) :
    toolChoiceForced (transformMessages b) = toolChoiceForced b := by
  unfold transformMessages
  split
  · exact forced_setKey _ _ _ (by decide)
  · rfl

theorem hasThinking_trtn (b : Json) :
    hasThinking (transform_request_tool_names b) = hasThinking b := by
  unfold transform_request_tool_names
  rw [hasThinking_transformMessages, hasThinking_transformToolChoice,
    hasThinking_transformTools]

theorem forced_trtn (b : Json) :
    toolChoiceForced (transform_request_tool_names b) = toolChoiceForced b := by
  unfold transform_request_tool_names
  rw [forced_transformMessages, forced_transformToolChoice, forced_transformTools]

theorem hasThinking_inject_fake (b : Json) (fid : String) :
    hasThinking (inject_fake_user_id b fid) = hasThinking b := by
  unfold inject_fake_user_id
  split
  · split
    · exact hasThinking_setKey _ _ _ (by decide)
    · exact hasThinking_setKey _ _ _ (by decide)
  · rfl

theorem forced_inject_fake (b : Json) (fid : String) :
    toolChoiceForced (inject_fake_user_id b fid) = toolChoiceForced b := by
  unfold inject_fake_user_id
  split
  · split
    · exact forced_setKey _ _ _ (by decide)
    · exact forced_setKey _ _ _ (by decide)
  · rfl

theorem hasThinking_inject_system_message (b : Json) :
    hasThinking (inject_system_message b) = hasThinking b := by
  unfold inject_system_message
  split
  · exact hasThinking_setKey _ _ _ (by decide)
  · rfl

theorem forced_inject_system_message (b : Json) :
    toolChoiceForced (inject_system_message b) = toolChoiceForced b := by
  unfold inject_system_message
  split
  · exact forced_setKey _ _ _ (by decide)
  · rfl

theorem hasThinking_sanitize_only (b : Json) :
    hasThinking (sanitize_system_only b) = hasThinking b := by
  unfold sanitize_system_only
  split
  · exact hasThinking_setKey _ _ _ (by decide)
  · rfl

theorem forced_sanitize_only (b : Json) :
    toolChoiceForced (sanitize_system_only b) = toolChoiceForced b := by
  unfold sanitize_system_only
  split
  · exact forced_setKey _ _ _ (by decide)
  · rfl

theorem hasThinking_itcc (b : Json) :
    hasThinking (inject_tools_cache_control b) = hasThinking b := by
  unfold inject_tools_cache_control
  split
  · split
    · rfl
    · split
      · rfl
      · exact hasThinking_setKey _ _ _ (by decide)
  · rfl

theorem forced_itcc (b : Json) :
    toolChoiceForced (inject_tools_cache_control b) = toolChoiceForced b := by
  unfold inject_tools_cache_control
  split
  · split
    · rfl
    · split
      · rfl
      · exact forced_setKey _ _ _ (by decide)
  · rfl

theorem hasThinking_iscc (b : Json) :
    hasThinking (inject_system_cache_control b) = hasThinking b := by
  unfold inject_system_cache_control
  split
  · split
    · rfl
    · split
      · rfl
      · exact hasThinking_setKey _ _ _ (by decide)
  · exact hasThinking_setKey _ _ _ (by decide)
  · rfl

theorem forced_iscc (b : Json) :
    toolChoiceForced (inject_system_cache_control b) = toolChoiceForced b := by
  unfold inject_system_cache_control
  split
  · split
    · rfl
    · split
      · rfl
      · exact forced_setKey _ _ _ (by decide)
  · exact forced_setKey _ _ _ (by decide)
  · rfl

theorem hasThinking_imcc (b : Json) :
    hasThinking (inject_messages_cache_control b) = hasThinking b := by
  unfold inject_messages_cache_control
  split
  · split
    · rfl
    · split
      · rfl
      · split
        · rfl
        · split
          · rfl
          · exact hasThinking_setKey _ _ _ (by decide)
  · rfl

theorem forced_imcc (b : Json) :
    toolChoiceForced (inject_messages_cache_control b) = toolChoiceForced b := by
  unfold inject_messages_cache_control
  split
  · split
    · rfl
    · split
      · rfl
      · split
        · rfl
        · split
          · rfl
          · exact forced_setKey _ _ _ (by decide)
  · rfl

theorem hasThinking_injectStep (inj : Json → Json)
    (h : ∀ b, hasThinking (inj b) = hasThinking b) (p : Json × Nat) :
    hasThinking (injectStep inj p).1 = hasThinking p.1 := by
  unfold injectStep
  split
  · show hasThinking (inj p.1) = hasThinking p.1
    exact h p.1
  · rfl

theorem forced_injectStep (inj : Json → Json)
    (h : ∀ b, toolChoiceForced (inj b) = toolChoiceForced b) (p : Json × Nat) :
    toolChoiceForced (injectStep inj p).1 = toolChoiceForced p.1 := by
  unfold injectStep
  split
  · show toolChoiceForced (inj p.1) = toolChoiceForced p.1
    exact h p.1
  · rfl

theorem hasThinking_ensure (b : Json) :
    hasThinking (ensure_cache_control b) = hasThinking b := by
  unfold ensure_cache_control
  split
  · rfl
  · unfold ensureFinal
    split
    · rw [hasThinking_imcc, hasThinking_injectStep _ hasThinking_iscc,
        hasThinking_injectStep _ hasThinking_itcc]
    · rw [hasThinking_injectStep _ hasThinking_iscc,
        hasThinking_injectStep _ hasThinking_itcc]

theorem forced_ensure (b : Json) :
    toolChoiceForced (ensure_cache_control b) = toolChoiceForced b := by
  unfold ensure_cache_control
  split
  · rfl
  · unfold ensureFinal
    split
    · rw [forced_imcc, forced_injectStep _ forced_iscc, forced_injectStep _ forced_itcc]
    · rw [forced_injectStep _ forced_iscc, forced_injectStep _ forced_itcc]

theorem hasThinking_strip (b : Json) :
    hasThinking (strip_unsupported_fields b) = hasThinking b :=
  hasThinking_removeKey b "context_management" (by decide)

theorem forced_strip (b : Json) :
    toolChoiceForced (strip_unsupported_fields b) = toolChoiceForced b :=
  forced_removeKey b "context_management" (by decide)

/-- `disable_thinking_if_forced` either removes `thinking` under a forced
tool choice, or leaves an unforced body unchanged. -/
theorem disable_cases (b : Json) :
    (toolChoiceForced b = true ∧
      disable_thinking_if_forced b = b.removeKey "thinking") ∨
    (toolChoiceForced b = false ∧ disable_thinking_if_forced b = b) := by
  unfold disable_thinking_if_forced toolChoiceForced
  rcases hscrut : toolChoiceType b with _ | j
  · right
    simp [hscrut]
  · cases j with
    | str t =>
        by_cases hc : (t == "any" || t == "tool") = true
        · left
          simp [hscrut, hc]
        · right
          simp only [Bool.not_eq_true] at hc
          simp [hscrut, hc]
    | _ =>
        right
        simp [hscrut]

/-- After `disable_thinking_if_forced`, the body never has both `thinking`
and a forced tool choice. -/
theorem disable_thinking_post (b : Json) :
    ¬(hasThinking (disable_thinking_if_forced b) = true ∧
      toolChoiceForced (disable_thinking_if_forced b) = true) := by
  rcases disable_cases b with ⟨hfo, heq⟩ | ⟨hfo, heq⟩
  · intro hcontra
    obtain ⟨hth, _⟩ := hcontra
    rw [heq] at hth
    unfold hasThinking at hth
    rw [get?_removeKey_self] at hth
    simp at hth
  · intro hcontra
    obtain ⟨_, hfo2⟩ := hcontra
    rw [heq] at hfo2
    rw [hfo2] at hfo
    simp at hfo

/-- C6: for every input request body, any combination of `thinking` and
`tool_choice` included, the body returned by `prepare_anthropic_request`
never carries both a `thinking` field and a forced `tool_choice.type`
(`any` or `tool`). -/
theorem claim_C6 (body : Json) (cloak : Bool) (freshId : String) :
    ¬(hasThinking (prepare_anthropic_request body cloak freshId).body = true ∧
      toolChoiceForced (prepare_anthropic_request body cloak freshId).body = true) := by
  have hpost := disable_thinking_post (body.removeKey "betas")
  intro hcontra
  obtain ⟨hth, hfo⟩ := hcontra
  apply hpost
  cases cloak with
  | false =>
      have e1 : hasThinking (prepare_anthropic_request body false freshId).body
          = hasThinking (disable_thinking_if_forced (body.removeKey "betas")) := by
        show hasThinking (strip_unsupported_fields (ensure_cache_control
          (sanitize_system_only (transform_request_tool_names
            (disable_thinking_if_forced (body.removeKey "betas")))))) = _
        rw [hasThinking_strip, hasThinking_ensure, hasThinking_sanitize_only, hasThinking_trtn]
      have e2 : toolChoiceForced (prepare_anthropic_request body false freshId).body
          = toolChoiceForced (disable_thinking_if_forced (body.removeKey "betas")) := by
        show toolChoiceForced (strip_unsupported_fields (ensure_cache_control
          (sanitize_system_only (transform_request_tool_names
            (disable_thinking_if_forced (body.removeKey "betas")))))) = _
        rw [forced_strip, forced_ensure, forced_sanitize_only, forced_trtn]
      rw [e1] at hth
      rw [e2] at hfo
      exact ⟨hth, hfo⟩
  | true =>
      have e1 : hasThinking (prepare_anthropic_request body true freshId).body
          = hasThinking (disable_thinking_if_forced (body.removeKey "betas")) := by
        show hasThinking (strip_unsupported_fields (ensure_cache_control
          (inject_system_message (transform_request_tool_names
            (inject_fake_user_id (disable_thinking_if_forced (body.removeKey "betas")) freshId))))) = _
        rw [hasThinking_strip, hasThinking_ensure, hasThinking_inject_system_message,
          hasThinking_trtn, hasThinking_inject_fake]
      have e2 : toolChoiceForced (prepare_anthropic_request body true freshId).body
          = toolChoiceForced (disable_thinking_if_forced (body.removeKey "betas")) := by
        show toolChoiceForced (strip_unsupported_fields (ensure_cache_control
          (inject_system_message (transform_request_tool_names
            (inject_fake_user_id (disable_thinking_if_forced (body.removeKey "betas")) freshId))))) = _
        rw [forced_strip, forced_ensure, forced_inject_system_message, forced_trtn,
          forced_inject_fake]
      rw [e1] at hth
      rw [e2] at hfo
      exact ⟨hth, hfo⟩

-- ============================================================================
-- THEOREMS: C3 — thinking configuration mapping
-- ============================================================================

/-- C3 counterexample: the claim says `claude-sonnet-4-6*` gets adaptive
thinking and that `auto` maps to a manual budget of 8192, but the code treats
only opus-4-6 as adaptive — `claude-sonnet-4-6` with effort `high` gets
manual thinking with budget 32000 — and maps `auto` to budget 16000. -/
theorem claim_C3_counterexample :
    (build_thinking_config "claude-sonnet-4-6" "high").thinking ≠
      some ThinkingVal.adaptive ∧
    build_thinking_config "claude-sonnet-4-6" "high" =
      ⟨some (.enabled 32000), none⟩ ∧
    build_thinking_config "claude-sonnet-4-5" "auto" =
      ⟨some (.enabled 16000), none⟩ := by
  refine ⟨by decide, by decide, by decide⟩

/-- C3 (amended): `build_thinking_config` realises the corrected mapping
`thinkingSpecC3`: adaptive thinking (with effort levels low/medium/high/max,
`auto` as medium, numeric thresholds 2048/16384/49152, 0 disabling, unknown
words defaulting to high) exactly for the opus-4-6 family; every other model
gets manual budgets low/minimal 1024, medium/med 8192, high 32000, xhigh/max
64000, auto 16000, integer N as N, default 8192; none/off/disabled disables
thinking everywhere. -/
theorem claim_C3_amended (model effort : String) :
    build_thinking_config model effort = thinkingSpecC3 model effort := by
  unfold build_thinking_config thinkingSpecC3 classifyEffort
  by_cases hn1 : (lowerStr effort == "none") = true
  · have heq : lowerStr effort = "none" := by simpa using hn1
    simp [heq]
  · by_cases hn2 : (lowerStr effort == "off") = true
    · have heq : lowerStr effort = "off" := by simpa using hn2
      simp [heq]
    · by_cases hn3 : (lowerStr effort == "disabled") = true
      · have heq : lowerStr effort = "disabled" := by simpa using hn3
        simp [heq]
      · by_cases hl1 : (lowerStr effort == "low") = true
        · have heq : lowerStr effort = "low" := by simpa using hl1
          by_cases hop : is_opus_4_6 model = true <;> simp [heq, hop]
        · by_cases hl2 : (lowerStr effort == "minimal") = true
          · have heq : lowerStr effort = "minimal" := by simpa using hl2
            by_cases hop : is_opus_4_6 model = true <;> simp [heq, hop]
          · by_cases hm1 : (lowerStr effort == "medium") = true
            · have heq : lowerStr effort = "medium" := by simpa using hm1
              by_cases hop : is_opus_4_6 model = true <;> simp [heq, hop]
            · by_cases hm2 : (lowerStr effort == "med") = true
              · have heq : lowerStr effort = "med" := by simpa using hm2
                by_cases hop : is_opus_4_6 model = true <;> simp [heq, hop]
              · by_cases hh : (lowerStr effort == "high") = true
                · have heq : lowerStr effort = "high" := by simpa using hh
                  by_cases hop : is_opus_4_6 model = true <;> simp [heq, hop]
                · by_cases hx1 : (lowerStr effort == "xhigh") = true
                  · have heq : lowerStr effort = "xhigh" := by simpa using hx1
                    by_cases hop : is_opus_4_6 model = true <;> simp [heq, hop]
                  · by_cases hx2 : (lowerStr effort == "max") = true
                    · have heq : lowerStr effort = "max" := by simpa using hx2
                      by_cases hop : is_opus_4_6 model = true <;> simp [heq, hop]
                    · by_cases ha : (lowerStr effort == "auto") = true
                      · have heq : lowerStr effort = "auto" := by simpa using ha
                        by_cases hop : is_opus_4_6 model = true <;> simp [heq, hop]
                      · rcases hnat : strToNat? effort with _ | n
                        · by_cases hop : is_opus_4_6 model = true <;>
                            simp [hn1, hn2, hn3, hl1, hl2, hm1, hm2, hh, hx1, hx2, ha, hnat, hop]
                        · cases n with
                          | zero =>
                              by_cases hop : is_opus_4_6 model = true <;>
                                simp [hn1, hn2, hn3, hl1, hl2, hm1, hm2, hh, hx1, hx2, ha, hnat, hop]
                          | succ m =>
                              by_cases hop : is_opus_4_6 model = true <;>
                                simp [hn1, hn2, hn3, hl1, hl2, hm1, hm2, hh, hx1, hx2, ha, hnat, hop]

-- ============================================================================
-- THEOREMS: C4 — opus suffix request shape
-- ============================================================================

/-- C4 counterexample: for model `claude-opus-4-6(max)` with no explicit
max_tokens the upstream request carries max_tokens 32000 (the adaptive raise
from the 16000 default), not the 128000 the claim states. -/
theorem claim_C4_counterexample :
    (transform_openai_model_config (some "claude-opus-4-6(max)") none none).max_tokens
      ≠ 128000 := by
  decide

/-- C4 (amended): for model `claude-opus-4-6(max)` and no explicit
max_tokens, the upstream request carries model `claude-opus-4-6`, adaptive
thinking, effort `max`, and max_tokens 32000. -/
theorem claim_C4_amended :
    transform_openai_model_config (some "claude-opus-4-6(max)") none none =
      ⟨"claude-opus-4-6", some .adaptive, some "max", 32000⟩ := by
  decide

-- ============================================================================
-- THEOREMS: C1 — usage recording appends one priced ledger row
-- ============================================================================

theorem updateKeyRows_limits (l : List (String × ClientKeyRow)) (id : String)
    (f : ClientKeyRow → ClientKeyRow) (hf : ∀ r, limitsOfRow (f r) = limitsOfRow r) :
    (updateKeyRows l id f).map (fun p => (p.1, limitsOfRow p.2)) =
      l.map (fun p => (p.1, limitsOfRow p.2)) := by
  induction l with
  | nil => rfl
  | cons p rest ih =>
      have hcons : updateKeyRows (p :: rest) id f
          = (if p.1 == id then (p.1, f p.2) else p) :: updateKeyRows rest id f := rfl
      rw [hcons]
      by_cases h : (p.1 == id) = true
      · rw [if_pos h, List.map_cons, List.map_cons, ih]
        show (p.1, limitsOfRow (f p.2)) :: _ = (p.1, limitsOfRow p.2) :: _
        rw [hf p.2]
      · rw [if_neg h, List.map_cons, List.map_cons, ih]

theorem db_ite_proj {α : Type} (P : Prop) [Decidable P] (A B : Db) (sel : Db → α)
    (h1 : sel A = sel B) : sel (if P then A else B) = sel B := by
  split
  · exact h1
  · rfl

/-- `maybe_reset_expired_windows` only touches window timestamps: the log,
the models, the per-model limits and every key's id and limit columns are
unchanged. -/
theorem maybe_reset_frame (db : Db) (key_id : String) (now : Nat)
    (wr : SubscriptionState) :
    (maybe_reset_expired_windows db key_id now wr).1.request_log = db.request_log ∧
    (maybe_reset_expired_windows db key_id now wr).1.models = db.models ∧
    (maybe_reset_expired_windows db key_id now wr).1.key_model_limits = db.key_model_limits ∧
    (maybe_reset_expired_windows db key_id now wr).1.client_keys.map
        (fun p => (p.1, limitsOfRow p.2)) =
      db.client_keys.map (fun p => (p.1, limitsOfRow p.2)) := by
  unfold maybe_reset_expired_windows
  split
  · exact ⟨rfl, rfl, rfl, rfl⟩
  · split
    · unfold resyncBranch
      refine ⟨?_, ?_, ?_, ?_⟩ <;> split <;> dsimp only <;>
        first
          | rfl
          | (apply updateKeyRows_limits; intro r; rfl)
    · unfold expiredBranch
      refine ⟨rfl, rfl, rfl, ?_⟩
      dsimp only
      apply updateKeyRows_limits
      intro r
      rfl

/-- `init_reset_timestamps` only touches window timestamps. -/
theorem init_frame (db : Db) (key_id : String) (wr : SubscriptionState) (now : Nat) :
    (init_reset_timestamps db key_id wr now).request_log = db.request_log ∧
    (init_reset_timestamps db key_id wr now).models = db.models ∧
    (init_reset_timestamps db key_id wr now).key_model_limits = db.key_model_limits ∧
    (init_reset_timestamps db key_id wr now).client_keys.map
        (fun p => (p.1, limitsOfRow p.2)) =
      db.client_keys.map (fun p => (p.1, limitsOfRow p.2)) := by
  unfold init_reset_timestamps
  split
  · split
    · refine ⟨rfl, rfl, rfl, ?_⟩
      dsimp only
      apply updateKeyRows_limits
      intro r
      rfl
    · exact ⟨rfl, rfl, rfl, rfl⟩
  · exact ⟨rfl, rfl, rfl, rfl⟩

/-- C1: recording usage after a completed request appends exactly one row to
`request_log`, whose cost is `round(Σ tokens × price)` under the requested
model's pricing; the models and per-model-limit tables are untouched and
every client-key row keeps its id and its three limit columns (the ledger
schema has no counter columns at all). -/
theorem claim_C1 (db : Db) (key_id model : String) (report : Usage)
    (wr : SubscriptionState) (now : Nat) (pr : ModelPricing)
    (hpr : lookupStr db.models model = some pr) :
    (record_model_usage db key_id model report wr now).request_log =
      db.request_log ++
        [⟨key_id, model, report.input_tokens, report.output_tokens,
          report.cache_read_input_tokens.getD 0, report.cache_creation_input_tokens.getD 0,
          costOf pr report, now⟩] ∧
    (record_model_usage db key_id model report wr now).models = db.models ∧
    (record_model_usage db key_id model report wr now).key_model_limits =
      db.key_model_limits ∧
    (record_model_usage db key_id model report wr now).client_keys.map
        (fun p => (p.1, limitsOfRow p.2)) =
      db.client_keys.map (fun p => (p.1, limitsOfRow p.2)) := by
  have h1 := maybe_reset_frame db key_id now wr
  have h2 := init_frame (maybe_reset_expired_windows db key_id now wr).1 key_id wr now
  have hmodels : (init_reset_timestamps (maybe_reset_expired_windows db key_id now wr).1
      key_id wr now).models = db.models := h2.2.1.trans h1.2.1
  have hcost : compute_cost (init_reset_timestamps
      (maybe_reset_expired_windows db key_id now wr).1 key_id wr now) model report
      = costOf pr report := by
    unfold compute_cost
    rw [hmodels, hpr]
  refine ⟨?_, ?_, ?_, ?_⟩
  · show (init_reset_timestamps (maybe_reset_expired_windows db key_id now wr).1
        key_id wr now).request_log ++ _ = _
    rw [h2.1, h1.1, hcost]
  · exact hmodels
  · exact h2.2.2.1.trans h1.2.2.1
  · exact h2.2.2.2.trans h1.2.2.2

/-- Witness for C1 at the concrete database `dbW`. -/
theorem claim_C1_witness :
    lookupStr dbW.models "m" = some ⟨3, 15, 1, 4⟩ ∧
    (record_model_usage dbW "k" "m" ⟨5, 7, some 8, none⟩ ⟨none, none, none, none⟩ 100).request_log
      = dbW.request_log ++ [⟨"k", "m", 5, 7, 8, 0,
          costOf ⟨3, 15, 1, 4⟩ ⟨5, 7, some 8, none⟩, 100⟩] :=
  ⟨by decide,
   (claim_C1 dbW "k" "m" ⟨5, 7, some 8, none⟩ ⟨none, none, none, none⟩ 100
     ⟨3, 15, 1, 4⟩ (by decide)).1⟩

-- ============================================================================
-- THEOREMS: C2 — reset is non-destructive
-- ============================================================================

theorem lookupStr_updateKeyRows (l : List (String × ClientKeyRow)) (id : String)
    (f : ClientKeyRow → ClientKeyRow) :
    lookupStr (updateKeyRows l id f) id = (lookupStr l id).map f := by
  induction l with
  | nil => rfl
  | cons p rest ih =>
      obtain ⟨k, r⟩ := p
      have hcons : updateKeyRows ((k, r) :: rest) id f
          = (if k == id then (k, f r) else (k, r)) :: updateKeyRows rest id f := rfl
      rw [hcons]
      by_cases h : (k == id) = true
      · rw [if_pos h]
        show (if k == id then some (f r) else lookupStr (updateKeyRows rest id f) id)
            = (if k == id then some r else lookupStr rest id).map f
        rw [if_pos h, if_pos h]
        rfl
      · rw [if_neg h]
        show (if k == id then some r else lookupStr (updateKeyRows rest id f) id)
            = (if k == id then some r else lookupStr rest id).map f
        rw [if_neg h, if_neg h, ih]

theorem cond_sum_eq (rows : List LogRow) (id : String) (m t : Nat) (hmt : m ≤ t) :
    ((rows.filter (fun r => r.key_id == id && m ≤ r.created_at)).map
      (fun r => if t ≤ r.created_at then r.cost_microdollars else 0)).sum =
    ((rows.filter (fun r => r.key_id == id && t ≤ r.created_at)).map
      (fun r => r.cost_microdollars)).sum := by
  induction rows with
  | nil => rfl
  | cons r rest ih =>
      by_cases hk : (r.key_id == id) = true
      · by_cases ht : t ≤ r.created_at
        · have hm : m ≤ r.created_at := le_trans hmt ht
          simp [List.filter_cons, hk, hm, ht, ih]
        · by_cases hm : m ≤ r.created_at
          · simp [List.filter_cons, hk, hm, ht, ih]
          · simp [List.filter_cons, hk, hm, ht, ih]
      · simp [List.filter_cons, hk, ih]

/-- `aggregate_usage_costs` in normal form: each component is the plain sum of
the key's costs from its own threshold on. -/
theorem aggregate_eq (db : Db) (id : String) (ws : WindowState) :
    aggregate_usage_costs db id ws =
      (winSum db id ws.five_hour_count_from,
       winSum db id ws.weekly_count_from,
       winSum db id ws.total_count_from) := by
  unfold aggregate_usage_costs winSum
  dsimp only
  refine congrArg₂ Prod.mk ?_ (congrArg₂ Prod.mk ?_ ?_)
  · exact cond_sum_eq _ _ _ _ (min_le_left _ _)
  · exact cond_sum_eq _ _ _ _ (le_trans (min_le_right _ _) (min_le_left _ _))
  · exact cond_sum_eq _ _ _ _ (le_trans (min_le_right _ _) (min_le_right _ _))

/-- `get_usage` in normal form, expressed through `winSum`. -/
theorem get_usage_view (db : Db) (id : String) (now : Nat) (key : ClientKeyRow)
    (hk : lookupStr db.client_keys id = some key) :
    get_usage db id now = some
      (⟨key.five_hour_limit, key.weekly_limit, key.total_limit⟩,
       ⟨if windowExpired key.five_hour_reset_at now then 0
          else winSum db id key.five_hour_count_from,
        if windowExpired key.five_hour_reset_at now then 0 else key.five_hour_reset_at,
        if windowExpired key.weekly_reset_at now then 0
          else winSum db id key.weekly_count_from,
        if windowExpired key.weekly_reset_at now then 0 else key.weekly_reset_at,
        winSum db id key.total_count_from⟩) := by
  unfold get_usage
  rw [hk]
  dsimp only
  rw [aggregate_eq]

theorem sum_future_zero (rows : List LogRow) (id : String) (now : Nat)
    (hlog : ∀ r ∈ rows, r.created_at < now) :
    ((rows.filter (fun r => r.key_id == id && now ≤ r.created_at)).map
      (fun r => r.cost_microdollars)).sum = 0 := by
  induction rows with
  | nil => rfl
  | cons r rest ih =>
      have hr : r.created_at < now := hlog r (List.mem_cons_self r rest)
      have hnot : ¬ now ≤ r.created_at := by omega
      simp [List.filter_cons, hnot, ih (fun x hx => hlog x (List.mem_cons_of_mem r hx))]

/-- A window whose `count_from` has been advanced to `now` sums to 0 while
every logged row is older than `now`. -/
theorem winSum_future (db : Db) (id : String) (now : Nat)
    (hlog : ∀ r ∈ db.request_log, r.created_at < now) :
    winSum db id now = 0 :=
  sum_future_zero db.request_log id now hlog

theorem windowExpired_zero (now : Nat) : windowExpired 0 now = false := rfl

/-- C2: for every client key and reset kind, `reset_usage` reports success,
leaves every historical `request_log` row in place, makes `get_usage` show 0
for each window the kind covers, and leaves the figures of the other windows
exactly as they were. -/
theorem claim_C2 (db : Db) (id : String) (kind : UsageResetType) (now : Nat)
    (key : ClientKeyRow) (hk : lookupStr db.client_keys id = some key)
    (hlog : ∀ r ∈ db.request_log, r.created_at < now) :
    (reset_usage db id kind now).1 = true ∧
    (reset_usage db id kind now).2.request_log = db.request_log ∧
    ∀ w : UsageWindow, windowTokens (reset_usage db id kind now).2 id now w =
      if affects kind w then some 0 else windowTokens db id now w := by
  have hsome : (lookupStr db.client_keys id).isSome = true := by rw [hk]; rfl
  have hred : reset_usage db id kind now =
      (true, { db with client_keys := updateKeyRows db.client_keys id (resetFn kind now) }) := by
    unfold reset_usage
    rw [if_pos hsome]
  have hk2 : lookupStr ({ db with client_keys := updateKeyRows db.client_keys id (resetFn kind now) } : Db).client_keys id
      = some (resetFn kind now key) := by
    show lookupStr (updateKeyRows db.client_keys id (resetFn kind now)) id = _
    rw [lookupStr_updateKeyRows, hk]
    rfl
  have hws : ∀ t, winSum { db with client_keys := updateKeyRows db.client_keys id (resetFn kind now) } id t = winSum db id t :=
    fun _ => rfl
  refine ⟨by rw [hred], by rw [hred], ?_⟩
  intro w
  rw [hred]
  unfold windowTokens
  rw [get_usage_view _ _ _ _ hk2, get_usage_view _ _ _ _ hk]
  cases kind <;> cases w <;>
    simp [affects, resetFn, hws, windowExpired_zero, winSum_future db id now hlog]

/-- Witness for C2 at the concrete database `dbW`: a five-hour reset keeps the
ledger row, zeroes the five-hour figure and leaves the total window alone. -/
theorem claim_C2_witness :
    (reset_usage dbW "k" .fiveHour 100).1 = true ∧
    (reset_usage dbW "k" .fiveHour 100).2.request_log = dbW.request_log ∧
    windowTokens (reset_usage dbW "k" .fiveHour 100).2 "k" 100 .fiveHour = some 0 ∧
    windowTokens (reset_usage dbW "k" .fiveHour 100).2 "k" 100 .total =
      windowTokens dbW "k" 100 .total := by
  have h := claim_C2 dbW "k" .fiveHour 100 ⟨some 1000000, none, none, 0, 0, 10, 10, 0⟩
    (by decide)
    (by intro r hr
        simp only [dbW, List.mem_singleton] at hr
        subst hr
        decide)
  refine ⟨h.1, h.2.1, ?_, ?_⟩
  · have h3 := h.2.2 .fiveHour
    simpa [affects] using h3
  · have h3 := h.2.2 .total
    simpa [affects] using h3

-- ============================================================================
-- THEOREMS: C7 — whitelist rejection, order, and no upstream call
-- ============================================================================

/-- C7: when the key validates, global limits pass, the model exists, but the
key's non-empty whitelist misses the requested model, `authenticate_key`
stops with `ModelNotAllowed` (status 403) after exactly the key-validation,
global-limit, model-existence and whitelist stages — a prefix of the source
stage order — and neither upstream stage (`extraUsageFetch`,
`oauthTokenFetch`) is reached. -/
theorem claim_C7 (env : AuthEnv) (model : String) (ck : ClientKeyInfo)
    (hv : env.validateResult = some ck)
    (hg : env.checkLimitsErr = none)
    (hm : env.modelValid = true)
    (hw : is_model_allowed env.allowedModels ck.id model = false) :
    authenticate_key env model =
      (.error (.modelNotAllowed model),
       [.validateKey, .globalLimits, .modelCheck, .whitelist]) ∧
    statusOf (.modelNotAllowed model) = 403 ∧
    (authenticate_key env model).2 <+: canonicalAuthOrder ∧
    .extraUsageFetch ∉ (authenticate_key env model).2 ∧
    .oauthTokenFetch ∉ (authenticate_key env model).2 := by
  have heq : authenticate_key env model =
      (.error (.modelNotAllowed model),
       [.validateKey, .globalLimits, .modelCheck, .whitelist]) := by
    unfold authenticate_key
    rw [hv, hg]
    simp [hm, hw]
  refine ⟨heq, rfl, ?_, ?_, ?_⟩
  · rw [heq]
    show [AuthStep.validateKey, .globalLimits, .modelCheck, .whitelist] <+: canonicalAuthOrder
    decide
  · rw [heq]
    show AuthStep.extraUsageFetch ∉ [AuthStep.validateKey, .globalLimits, .modelCheck, .whitelist]
    decide
  · rw [heq]
    show AuthStep.oauthTokenFetch ∉ [AuthStep.validateKey, .globalLimits, .modelCheck, .whitelist]
    decide

/-- Witness for C7 at the concrete environment `envW`. -/
theorem claim_C7_witness :
    envW.validateResult = some ⟨"k", false⟩ ∧
    authenticate_key envW "claude-opus-4-6" =
      (.error (.modelNotAllowed "claude-opus-4-6"),
       [.validateKey, .globalLimits, .modelCheck, .whitelist]) ∧
    statusOf (.modelNotAllowed "claude-opus-4-6") = 403 := by
  have h := claim_C7 envW "claude-opus-4-6" ⟨"k", false⟩ rfl rfl rfl (by decide)
  exact ⟨rfl, h.1, h.2.1⟩

-- ============================================================================
-- THEOREMS: C8 — validate scans every enabled row
-- ============================================================================

theorem scanCount (presented : String) (l : List KeyRecord)
    (acc : Option KeyRecord × Nat) :
    (l.foldl (fun acc ck => (if ck.key == presented then some ck else acc.1, acc.2 + 1)) acc).2
      = acc.2 + l.length := by
  induction l generalizing acc with
  | nil => simp
  | cons r rest ih =>
      rw [List.foldl_cons, ih]
      dsimp only
      simp only [List.length_cons]
      omega

theorem scanFst (presented : String) (l : List KeyRecord) (acc : Option KeyRecord)
    (n : Nat) :
    (l.foldl (fun acc ck => (if ck.key == presented then some ck else acc.1, acc.2 + 1)) (acc, n)).1
      = l.foldl (fun a ck => if ck.key == presented then some ck else a) acc := by
  induction l generalizing acc n with
  | nil => rfl
  | cons r rest ih =>
      rw [List.foldl_cons, List.foldl_cons]
      exact ih _ _

theorem simpleFold_sound (presented : String) (l : List KeyRecord)
    (acc : Option KeyRecord) (ck : KeyRecord)
    (h : l.foldl (fun a r => if r.key == presented then some r else a) acc = some ck) :
    (ck ∈ l ∧ ck.key = presented) ∨ acc = some ck := by
  induction l generalizing acc with
  | nil => exact Or.inr h
  | cons r rest ih =>
      rw [List.foldl_cons] at h
      rcases ih _ h with h1 | h2
      · exact Or.inl ⟨List.mem_cons_of_mem r h1.1, h1.2⟩
      · by_cases hp : (r.key == presented) = true
        · rw [if_pos hp] at h2
          have hr : r = ck := by
            injection h2
          subst hr
          exact Or.inl ⟨List.mem_cons_self r rest, eq_of_beq hp⟩
        · rw [if_neg hp] at h2
          exact Or.inr h2

theorem simpleFold_isSome (presented : String) (l : List KeyRecord)
    (acc : Option KeyRecord) :
    (l.foldl (fun a r => if r.key == presented then some r else a) acc).isSome
      = (acc.isSome || l.any (fun r => r.key == presented)) := by
  induction l generalizing acc with
  | nil => simp
  | cons r rest ih =>
      rw [List.foldl_cons, ih]
      by_cases hp : (r.key == presented) = true
      · simp [hp]
      · simp [hp]

theorem any_filter_and {α : Type} (l : List α) (p q : α → Bool) :
    (l.filter p).any q = l.any (fun a => p a && q a) := by
  induction l with
  | nil => rfl
  | cons a rest ih =>
      by_cases hp : p a = true
      · simp [List.filter_cons, hp, ih]
      · simp [List.filter_cons, hp, ih]

/-- C8: `validate` fetches the enabled rows and compares the presented key
against every one of them — the comparison count equals the number of enabled
rows, whatever the presented key and wherever (or whether) it matches, so no
early return happens on a match; a validated key is always an enabled stored
row carrying the presented string, and a match is found exactly when some
enabled row carries it — a disabled key never validates. -/
theorem claim_C8 (rows : List KeyRecord) (presented : String) :
    (validateScan rows presented).2 = (rows.filter (fun r => r.enabled)).length ∧
    (∀ ck, validateKeyScan rows presented = some ck →
      ck.enabled = true ∧ ck.key = presented ∧ ck ∈ rows) ∧
    (validateKeyScan rows presented).isSome =
      rows.any (fun r => r.enabled && r.key == presented) := by
  refine ⟨?_, ?_, ?_⟩
  · unfold validateScan
    rw [scanCount]
    exact Nat.zero_add _
  · intro ck h
    unfold validateKeyScan validateScan at h
    rw [scanFst] at h
    rcases simpleFold_sound presented _ none ck h with ⟨hmem, hkey⟩ | habs
    · rw [List.mem_filter] at hmem
      exact ⟨hmem.2, hkey, hmem.1⟩
    · cases habs
  · unfold validateKeyScan validateScan
    rw [scanFst, simpleFold_isSome]
    simp [any_filter_and]

-- ============================================================================
-- THEOREMS: C9 — OAuth refresh behaviour
-- ============================================================================

/-- C9: `refresh_if_needed` returns Api/WellKnown secrets with the stored
credential unchanged and no upstream call; a fresh OAuth token
(`now + 60000 < expires`) is returned without an upstream call; an expired
token whose failed refresh body contains "invalid_grant" has its stored
credential deleted and yields `ok none`; a successful refresh stores the
rotated tokens (account fields kept) and returns the new access token. -/
theorem claim_C9 (now expires : Nat) (access refreshTok k t body : String)
    (status : Nat) (aid eur : Option String) (tr : TokenResponse)
    (up : RefreshHttp) :
    refresh_if_needed (some (.api k)) now up = ⟨some (.api k), .ok (some k), false⟩ ∧
    refresh_if_needed (some (.wellKnown k t)) now up =
      ⟨some (.wellKnown k t), .ok (some t), false⟩ ∧
    (now + 60000 < expires →
      refresh_if_needed (some (.oauth access refreshTok expires aid eur)) now up =
        ⟨some (.oauth access refreshTok expires aid eur), .ok (some access), false⟩) ∧
    (¬ (now + 60000 < expires) → strContains body "invalid_grant" = true →
      refresh_if_needed (some (.oauth access refreshTok expires aid eur)) now
        (.httpFailure status body) = ⟨none, .ok none, true⟩) ∧
    (¬ (now + 60000 < expires) →
      refresh_if_needed (some (.oauth access refreshTok expires aid eur)) now
        (.success tr) =
        ⟨some (.oauth tr.access_token tr.refresh_token (now + tr.expires_in * 1000) aid eur),
         .ok (some tr.access_token), true⟩) := by
  refine ⟨rfl, rfl, ?_, ?_, ?_⟩
  · intro h
    simp only [refresh_if_needed]
    rw [if_pos h]
  · intro h hb
    simp only [refresh_if_needed]
    rw [if_neg h, if_pos hb]
  · intro h
    simp only [refresh_if_needed]
    rw [if_neg h]

/-- Witness for C9: a static key, a fresh token, an invalid_grant failure and
a successful rotation, each at concrete values. -/
theorem claim_C9_witness :
    refresh_if_needed (some (.api "k")) 0 (.netError "x") =
      ⟨some (.api "k"), .ok (some "k"), false⟩ ∧
    (0 + 60000 < 70000 ∧
      refresh_if_needed (some (.oauth "a" "r" 70000 none none)) 0 (.netError "x") =
        ⟨some (.oauth "a" "r" 70000 none none), .ok (some "a"), false⟩) ∧
    (strContains "error: invalid_grant" "invalid_grant" = true ∧
      refresh_if_needed (some (.oauth "a" "r" 5 none none)) 100000
        (.httpFailure 400 "error: invalid_grant") = ⟨none, .ok none, true⟩) ∧
    refresh_if_needed (some (.oauth "a" "r" 5 none none)) 100000
      (.success ⟨"na", "nr", 3600⟩) =
      ⟨some (.oauth "na" "nr" (100000 + 3600 * 1000) none none), .ok (some "na"), true⟩ := by
  have h1 := claim_C9 0 70000 "a" "r" "k" "t" "b" 400 none none
    ⟨"na", "nr", 3600⟩ (.netError "x")
  have h2 := claim_C9 100000 5 "a" "r" "k" "t" "error: invalid_grant" 400 none none
    ⟨"na", "nr", 3600⟩ (.netError "x")
  refine ⟨h1.1, ⟨by decide, h1.2.2.1 (by decide)⟩,
    ⟨by decide, h2.2.2.2.1 (by omega) (by decide)⟩,
    h2.2.2.2.2 (by omega)⟩

end ClaudeProxy
